import Mathlib

/-!
Shallow embedding of the `rtrs` ray tracer (Rust) in Lean 4, with the
spec claims settled as theorems.  `f32` values are modelled as real
numbers; `f32::INFINITY` sentinels for "no intersection" are modelled by
`Option` (the task statement's convention for fallible code).  Division
by zero follows Lean's `x / 0 = 0` convention where the Rust floats
would produce `inf`/`NaN`; every claim below is settled away from those
degenerate points or quantifies over them explicitly.
-/

namespace Rtrs

noncomputable section

/-! ## Linear algebra kernel (src/basics.rs) -/

/-- RGB color with channels in ℝ (f32 in the source). -/
@[ext]
structure Color where
  r : ℝ
  g : ℝ
  b : ℝ

namespace Color

/-- `Color::clamp`: clamp all channels into [0,1] (`self.r.max(0.0).min(1.0)`). -/
def clamp (c : Color) : Color :=
  { r := min (max c.r 0) 1, g := min (max c.g 0) 1, b := min (max c.b 0) 1 }

/-- `Color::add_no_clamp`. -/
def addNoClamp (c o : Color) : Color := { r := c.r + o.r, g := c.g + o.g, b := c.b + o.b }

/-- `impl Add<&Color> for &Color`: componentwise add, then clamp. -/
def add (c o : Color) : Color := (c.addNoClamp o).clamp

/-- `impl Mul<f32> for &Color`: componentwise scale, then clamp. -/
def smul (c : Color) (strength : ℝ) : Color :=
  (Color.mk (c.r * strength) (c.g * strength) (c.b * strength)).clamp

/-- `Color::new` clamps on construction. -/
def new (r g b : ℝ) : Color := (Color.mk r g b).clamp

/-- `Color::zero`. -/
def zero : Color := Color.new 0 0 0

end Color

/-- 3-vector over ℝ (f32 in the source). -/
@[ext]
structure Vec3 where
  x : ℝ
  y : ℝ
  z : ℝ

namespace Vec3

def zero : Vec3 := ⟨0, 0, 0⟩

def add (v o : Vec3) : Vec3 := ⟨v.x + o.x, v.y + o.y, v.z + o.z⟩

def sub (v o : Vec3) : Vec3 := ⟨v.x - o.x, v.y - o.y, v.z - o.z⟩

/-- `impl Mul<f32> for &Vec3`. -/
def smul (v : Vec3) (scale : ℝ) : Vec3 := ⟨v.x * scale, v.y * scale, v.z * scale⟩

def neg (v : Vec3) : Vec3 := ⟨-v.x, -v.y, -v.z⟩

def normSquared (v : Vec3) : ℝ := v.x ^ 2 + v.y ^ 2 + v.z ^ 2

def norm (v : Vec3) : ℝ := Real.sqrt v.normSquared

/-- `Vec3::normalize`: divide by the Euclidean norm (NaN for the zero
vector in the source; `0/0 = 0` in this model). -/
def normalize (v : Vec3) : Vec3 := ⟨v.x / v.norm, v.y / v.norm, v.z / v.norm⟩

def dot (v o : Vec3) : ℝ := v.x * o.x + v.y * o.y + v.z * o.z

def cross (v o : Vec3) : Vec3 :=
  ⟨v.y * o.z - v.z * o.y, v.z * o.x - v.x * o.z, v.x * o.y - v.y * o.x⟩

end Vec3

/-- 3-D point; kept distinct from `Vec3` exactly as in the source. -/
@[ext]
structure Point where
  x : ℝ
  y : ℝ
  z : ℝ

namespace Point

def zero : Point := ⟨0, 0, 0⟩

/-- `impl Mul<f32> for &Point`. -/
def smul (p : Point) (s : ℝ) : Point := ⟨p.x * s, p.y * s, p.z * s⟩

/-- `impl Add<f32> for &Point`: add a scalar to every coordinate. -/
def addScalar (p : Point) (s : ℝ) : Point := ⟨p.x + s, p.y + s, p.z + s⟩

/-- `impl Sub for &Point`: point minus point is a vector. -/
def sub (p o : Point) : Vec3 := ⟨p.x - o.x, p.y - o.y, p.z - o.z⟩

/-- `impl Add<&Vec3> for &Point`. -/
def addVec (p : Point) (v : Vec3) : Point := ⟨p.x + v.x, p.y + v.y, p.z + v.z⟩

def toVec (p : Point) : Vec3 := ⟨p.x, p.y, p.z⟩

end Point

def Vec3.toPoint (v : Vec3) : Point := ⟨v.x, v.y, v.z⟩

/-- Ray: origin plus direction (the direction is not required to be
normalized anywhere in the source). -/
structure Ray where
  origin : Point
  direction : Vec3

namespace Ray

/-- `Ray::compute_point`: the point at parameter `t`. -/
def computePoint (ray : Ray) (t : ℝ) : Point :=
  ray.origin.addVec (ray.direction.smul t)

/-- `Ray::compute_t`: recover `t` for a point assumed to lie on the ray
(`sqrt(|p - o|^2 / |d|^2)`, hence always nonnegative). -/
def computeT (ray : Ray) (point : Point) : ℝ :=
  Real.sqrt ((point.sub ray.origin).normSquared / ray.direction.normSquared)

end Ray

/-- Diagonal 3x3 matrix (src/basics.rs `DiagMat3`). -/
structure DiagMat3 where
  a : ℝ
  b : ℝ
  c : ℝ

namespace DiagMat3

def computeInverse (m : DiagMat3) : DiagMat3 := ⟨1 / m.a, 1 / m.b, 1 / m.c⟩

def mulVec (m : DiagMat3) (v : Vec3) : Vec3 := ⟨v.x * m.a, v.y * m.b, v.z * m.c⟩

end DiagMat3

/-! ## 3x3 matrices and affine transformations (src/matrix.rs) -/

/-- Row-major 3x3 matrix, stored as three row vectors as in the source. -/
structure Mat3 where
  row0 : Vec3
  row1 : Vec3
  row2 : Vec3

namespace Mat3

def identity : Mat3 := ⟨⟨1, 0, 0⟩, ⟨0, 1, 0⟩, ⟨0, 0, 1⟩⟩

/-- `Mat3::transpose`. -/
def transpose (m : Mat3) : Mat3 :=
  ⟨⟨m.row0.x, m.row1.x, m.row2.x⟩,
   ⟨m.row0.y, m.row1.y, m.row2.y⟩,
   ⟨m.row0.z, m.row1.z, m.row2.z⟩⟩

/-- `impl Mul<&Vec3> for &Mat3`: row-wise dot products. -/
def mulVec (m : Mat3) (v : Vec3) : Vec3 :=
  ⟨m.row0.dot v, m.row1.dot v, m.row2.dot v⟩

/-- `impl Mul<&Point> for &Mat3`. -/
def mulPoint (m : Mat3) (p : Point) : Point :=
  ⟨m.row0.dot p.toVec, m.row1.dot p.toVec, m.row2.dot p.toVec⟩

/-- `impl Mul<&Mat3> for &Mat3`: multiply against the transposed rows of
the right factor, then transpose the result (this equals the standard
matrix product). -/
def mul (m other : Mat3) : Mat3 :=
  (Mat3.mk (m.mulVec other.transpose.row0)
           (m.mulVec other.transpose.row1)
           (m.mulVec other.transpose.row2)).transpose

def det (m : Mat3) : ℝ :=
  m.row0.x * (m.row1.y * m.row2.z - m.row2.y * m.row1.z) -
  m.row0.y * (m.row1.x * m.row2.z - m.row1.z * m.row2.x) +
  m.row0.z * (m.row1.x * m.row2.y - m.row1.y * m.row2.x)

/-- `Mat3::compute_inverse` via the adjugate divided by the determinant. -/
def computeInverse (m : Mat3) : Mat3 :=
  let invdet := 1 / m.det
  ⟨⟨(m.row1.y * m.row2.z - m.row2.y * m.row1.z) * invdet,
    (m.row0.z * m.row2.y - m.row0.y * m.row2.z) * invdet,
    (m.row0.y * m.row1.z - m.row0.z * m.row1.y) * invdet⟩,
   ⟨(m.row1.z * m.row2.x - m.row1.x * m.row2.z) * invdet,
    (m.row0.x * m.row2.z - m.row0.z * m.row2.x) * invdet,
    (m.row1.x * m.row0.z - m.row0.x * m.row1.z) * invdet⟩,
   ⟨(m.row1.x * m.row2.y - m.row2.x * m.row1.y) * invdet,
    (m.row2.x * m.row0.y - m.row0.x * m.row2.y) * invdet,
    (m.row0.x * m.row1.y - m.row1.x * m.row0.y) * invdet⟩⟩

end Mat3

/-- Affine transformation: 3x3 linear part plus a translation vector
(`Transformation` in src/matrix.rs, `AffineMat3` in later snapshots). -/
structure Transformation where
  transformMat : Mat3
  translation : Vec3

namespace Transformation

def identity : Transformation := ⟨Mat3.identity, Vec3.zero⟩

/-- `impl Mul<&Transformation> for &Transformation`: the linear part is
`A.transform_mat * B.transform_mat.transpose()` (note the transpose), the
translation is `A.transform_mat * B.translation + A.translation`. -/
def compose (a b : Transformation) : Transformation :=
  { transformMat := a.transformMat.mul b.transformMat.transpose,
    translation := (a.transformMat.mulVec b.translation).add a.translation }

/-- `impl Mul<&Vec3> for &Transformation`: linear part only. -/
def applyVec (tr : Transformation) (v : Vec3) : Vec3 := tr.transformMat.mulVec v

/-- `impl Mul<&Point> for &Transformation`: linear part plus translation. -/
def applyPoint (tr : Transformation) (p : Point) : Point :=
  ((tr.transformMat.mulVec p.toVec).add tr.translation).toPoint

/-- `Transformation::compute_inverse`. -/
def computeInverse (tr : Transformation) : Transformation :=
  let transformInv := tr.transformMat.computeInverse
  { transformMat := transformInv,
    translation := (transformInv.mulVec tr.translation).smul (-1) }

/-- The same transformation with its linear part transposed (used to
state what the source's composition actually computes). -/
def transposeLinear (tr : Transformation) : Transformation :=
  { transformMat := tr.transformMat.transpose, translation := tr.translation }

end Transformation

/-! ## Surface interface types (src/surface/surface.rs, src/surface.rs) -/

/-- `static MIN_RAY_T: f32 = 0.0001` — roots below this threshold are
rejected to suppress self-intersection ("shadow acne"). -/
def minRayT : ℝ := 0.0001

/-- Result of an intersection test.  The source's sentinel
`Hit::inf()` (`t = f32::INFINITY`) is modelled by `Option Hit` in the
aggregation code below. -/
structure Hit where
  t : ℝ
  normal : Vec3

/-- Per-surface material data. -/
structure VisualData where
  color : Color
  specularStrength : ℝ
  reflectionStrength : ℝ
  reflectionGlossiness : ℝ

namespace VisualData

def fromColor (c : Color) : VisualData := ⟨c, 0, 0, 0⟩

def zero : VisualData := fromColor Color.zero

def grey : VisualData := fromColor ⟨0.74, 0.76, 0.78⟩

end VisualData

/-- Modelled from the spec: `RayOptions` (its definition file is not in
the provided snapshot; fields per usage in src/scene.rs).  Only the
recursion `depth` and the soft-shadow `light_shift` influence any
function verified here; the display-only fields (mesh normal type, BVH
display level, bounding-volume type) are omitted. -/
structure RayOptions where
  depth : ℕ
  lightShift : Option (ℝ × ℝ)

namespace RayOptions

def fromDepth (d : ℕ) : RayOptions := ⟨d, none⟩

/-- Modelled from the spec: `RayOptions::increment_depth` increments the
recursion depth, keeping the other fields. -/
def incrementDepth (o : RayOptions) : RayOptions := ⟨o.depth + 1, o.lightShift⟩

end RayOptions

/-! ## Quadric primitives (src/surface/quadrics.rs) -/

/-- `find_square_roots`: roots of `a t^2 + b t + c = 0`.
Negative discriminant gives `none`; zero discriminant gives the single
root `-b/(2a)`; otherwise both roots `(-b ∓ sqrt disc) / (2a)`. -/
def findSquareRoots (a b c : ℝ) : Option (ℝ × Option ℝ) :=
  let discr := b * b - 4 * a * c
  if discr < 0 then none
  else if discr = 0 then some (-b / (2 * a), none)
  else
    let discrSqrt := Real.sqrt discr
    some ((-b - discrSqrt) / (2 * a), some ((-b + discrSqrt) / (2 * a)))

/-- `select_smallest_positive_root`. -/
def selectSmallestPositiveRoot (roots : ℝ × Option ℝ) : Option ℝ :=
  match roots.2 with
  | none => if roots.1 ≥ minRayT then some roots.1 else none
  | some t1 =>
    let t0 := roots.1
    if t0 < minRayT then
      if t1 < minRayT then none else some t1
    else
      if t1 < minRayT then some t0 else some (min t0 t1)

/-- `compute_plane_hit`: ratio of signed distances, rejecting parallel
rays and roots below `MIN_RAY_T`. -/
def computePlaneHit (bias : Point) (normal : Vec3) (ray : Ray) : Option Hit :=
  let denom := normal.dot ray.direction
  if denom = 0 then none
  else
    let num := (bias.sub ray.origin).dot normal
    let t := num / denom
    if t ≥ minRayT then some ⟨t, normal⟩ else none

structure Sphere where
  center : Point
  radius : ℝ
  vis : VisualData

namespace Sphere

def fromPosition (radius : ℝ) (center : Point) : Sphere := ⟨center, radius, VisualData.zero⟩

def computeNormal (s : Sphere) (point : Point) : Vec3 :=
  (point.sub s.center).smul (1 / s.radius)

def computeHit (s : Sphere) (ray : Ray) : Option Hit :=
  let origToC := s.center.sub ray.origin
  match findSquareRoots ray.direction.normSquared
      (-2 * ray.direction.dot origToC)
      (origToC.normSquared - s.radius * s.radius) with
  | none => none
  | some roots =>
    match selectSmallestPositiveRoot roots with
    | none => none
    | some t => some ⟨t, s.computeNormal (ray.computePoint t)⟩

end Sphere

structure Plane where
  bias : Point
  normal : Vec3
  vis : VisualData

namespace Plane

def fromY (y : ℝ) (color : Color) : Plane :=
  ⟨⟨0, y, 0⟩, ⟨0, 1, 0⟩, VisualData.fromColor color⟩

def computeHit (p : Plane) (ray : Ray) : Option Hit :=
  computePlaneHit p.bias p.normal ray

end Plane

structure Ellipsoid where
  center : Point
  vis : VisualData
  scale : DiagMat3

namespace Ellipsoid

def computeNormal (e : Ellipsoid) (point : Point) : Vec3 :=
  (Vec3.mk (2 * (point.x - e.center.x) / (e.scale.a * e.scale.a))
           (2 * (point.y - e.center.y) / (e.scale.b * e.scale.b))
           (2 * (point.z - e.center.z) / (e.scale.c * e.scale.c))).normalize

def computeHit (e : Ellipsoid) (ray : Ray) : Option Hit :=
  let scaleInv := e.scale.computeInverse
  let origToCScaled := scaleInv.mulVec (e.center.sub ray.origin)
  let rayDirScaled := scaleInv.mulVec ray.direction
  match findSquareRoots rayDirScaled.normSquared
      (-2 * rayDirScaled.dot origToCScaled)
      (origToCScaled.normSquared - 1) with
  | none => none
  | some roots =>
    match selectSmallestPositiveRoot roots with
    | none => none
    | some t => some ⟨t, e.computeNormal (ray.computePoint t)⟩

end Ellipsoid

structure Cone where
  apex : Point
  height : ℝ
  halfAngle : ℝ
  vis : VisualData

namespace Cone

def liesOnSlab (c : Cone) (point : Point) : Prop :=
  |point.y - (c.apex.y - c.height)| < 0.000001

noncomputable instance (c : Cone) (point : Point) : Decidable (c.liesOnSlab point) := by
  unfold liesOnSlab; infer_instance

def computeNormal (c : Cone) (point : Point) : Vec3 :=
  if c.liesOnSlab point then ⟨0, -1, 0⟩
  else
    let s := Real.tanh c.halfAngle ^ 2
    (Vec3.mk (2 * (point.x - c.apex.x))
             (-2 * s * (point.y - c.apex.y))
             (2 * (point.z - c.apex.z))).normalize

def computeConeHit (c : Cone) (ray : Ray) : Option Hit :=
  let s := Real.tanh c.halfAngle ^ 2
  match findSquareRoots
      (ray.direction.x ^ 2 + ray.direction.z ^ 2 - ray.direction.y ^ 2 * s)
      (2 * (ray.direction.x * (ray.origin.x - c.apex.x) +
            ray.direction.z * (ray.origin.z - c.apex.z) -
            s * ray.direction.y * (ray.origin.y - c.apex.y)))
      ((ray.origin.x - c.apex.x) ^ 2 + (ray.origin.z - c.apex.z) ^ 2 -
        s * (ray.origin.y - c.apex.y) ^ 2) with
  | none => none
  | some roots =>
    match selectSmallestPositiveRoot roots with
    | none => none
    | some t =>
      let py := ray.origin.y + t * ray.direction.y
      if py ≤ c.apex.y ∧ py ≥ c.apex.y - c.height then
        some ⟨t, c.computeNormal (ray.computePoint t)⟩
      else none

def computeSlabHit (c : Cone) (ray : Ray) : Option Hit :=
  let center : Point := ⟨c.apex.x, c.apex.y - c.height, c.apex.z⟩
  let slabNormal : Vec3 := ⟨0, -1, 0⟩
  let radius := c.height * Real.tanh c.halfAngle
  match computePlaneHit center slabNormal ray with
  | none => none
  | some planeHit =>
    let hitPoint := ray.computePoint planeHit.t
    if (hitPoint.sub center).normSquared < radius ^ 2 then some planeHit else none

def computeHit (c : Cone) (ray : Ray) : Option Hit :=
  let coneHit := c.computeConeHit ray
  let slabHit := c.computeSlabHit ray
  match slabHit with
  | some sh =>
    match coneHit with
    | some ch => some (if sh.t < ch.t then sh else ch)
    | none => some sh
  | none => coneHit

end Cone

/-! ## Axis-aligned bounding box (src/surface/aabb.rs) -/

/-- `static EPSILON: f32 = 0.0000000001` — added to every ray-direction
component before dividing in the slab test. -/
def aabbEpsilon : ℝ := 0.0000000001

structure AxisAlignedBox where
  minCorner : Point
  maxCorner : Point

namespace AxisAlignedBox

/-- The slab test from aabb.rs, including the source's `+ EPSILON` shift
of every direction component and the `MIN_RAY_T` gating at the end. -/
def computeHit (box : AxisAlignedBox) (ray : Ray) : Option Hit :=
  let tMinX0 := (box.minCorner.x - ray.origin.x) / (ray.direction.x + aabbEpsilon)
  let tMaxX0 := (box.maxCorner.x - ray.origin.x) / (ray.direction.x + aabbEpsilon)
  let tMinX := if tMinX0 > tMaxX0 then tMaxX0 else tMinX0
  let tMaxX := if tMinX0 > tMaxX0 then tMinX0 else tMaxX0
  let tMinY0 := (box.minCorner.y - ray.origin.y) / (ray.direction.y + aabbEpsilon)
  let tMaxY0 := (box.maxCorner.y - ray.origin.y) / (ray.direction.y + aabbEpsilon)
  let tMinY := if tMinY0 > tMaxY0 then tMaxY0 else tMinY0
  let tMaxY := if tMinY0 > tMaxY0 then tMinY0 else tMaxY0
  if tMinX > tMaxY ∨ tMinY > tMaxX then none
  else
    let tMin1 := if tMinY > tMinX then tMinY else tMinX
    let tMax1 := if tMaxY < tMaxX then tMaxY else tMaxX
    let tMinZ0 := (box.minCorner.z - ray.origin.z) / (ray.direction.z + aabbEpsilon)
    let tMaxZ0 := (box.maxCorner.z - ray.origin.z) / (ray.direction.z + aabbEpsilon)
    let tMinZ := if tMinZ0 > tMaxZ0 then tMaxZ0 else tMinZ0
    let tMaxZ := if tMinZ0 > tMaxZ0 then tMinZ0 else tMaxZ0
    if tMin1 > tMaxZ ∨ tMinZ > tMax1 then none
    else
      let tMin2 := if tMinZ > tMin1 then tMinZ else tMin1
      let tMax2 := if tMaxZ < tMax1 then tMaxZ else tMax1
      if tMin2 < minRayT then
        if tMax2 < minRayT then none
        else some ⟨tMax2, ⟨0, 1, 0⟩⟩
      else some ⟨tMin2, ⟨0, 1, 0⟩⟩

end AxisAlignedBox

/-! ## Triangle mesh and BVH (src/surface/mesh.rs) -/

/-- Coordinate access matching `Vec3`'s `Index` impl, used by
`Triangle::min_dim`/`max_dim` (out-of-range indices panic in the source
and are junk here). -/
def Point.coord (p : Point) (idx : ℕ) : ℝ :=
  if idx = 0 then p.x else if idx = 1 then p.y else if idx = 2 then p.z else 0

/-- A triangle holds three indices into shared vertex arrays (the
`Arc`-shared buffers become plain lists; out-of-bounds lookups panic in
the source and default here). -/
structure Triangle where
  indices : ℕ × ℕ × ℕ
  positions : List Point
  calculatedNormals : List Vec3
  normals : List Vec3
  vis : VisualData

instance : Inhabited Triangle := ⟨⟨(0, 0, 0), [], [], [], ⟨⟨0, 0, 0⟩, 0, 0, 0⟩⟩⟩

namespace Triangle

def v0 (t : Triangle) : Point := t.positions.getD t.indices.1 Point.zero

def v1 (t : Triangle) : Point := t.positions.getD t.indices.2.1 Point.zero

def v2 (t : Triangle) : Point := t.positions.getD t.indices.2.2 Point.zero

/-- `Triangle::compute_normal`: normalized cross product of the two edge
vectors out of vertex 0. -/
def computeNormal (t : Triangle) : Vec3 :=
  ((t.v1.sub t.v0).cross (t.v2.sub t.v0)).normalize

/-- `Triangle::compute_center`, exactly as written in the source: it
sums `positions[indices.0] + positions[indices.1] + positions[indices.0]`
(the first vertex twice, never the third) and divides by 3. -/
def computeCenter (t : Triangle) : Point :=
  (((t.v0.toVec.add t.v1.toVec).add t.v0.toVec).smul (1 / 3)).toPoint

def minDim (t : Triangle) (idx : ℕ) : ℝ :=
  min (min (t.v0.coord idx) (t.v1.coord idx)) (t.v2.coord idx)

def maxDim (t : Triangle) (idx : ℕ) : ℝ :=
  max (max (t.v0.coord idx) (t.v1.coord idx)) (t.v2.coord idx)

end Triangle

/-- `is_on_the_right`: whether the hit point is on the right of the
directed edge `from → to`, given the face normal. -/
def isOnTheRight (hitPoint fromP toP : Point) (normal : Vec3) : Prop :=
  normal.dot ((toP.sub fromP).cross (hitPoint.sub fromP)) < 0

noncomputable instance (p a b : Point) (n : Vec3) : Decidable (isOnTheRight p a b n) := by
  unfold isOnTheRight; infer_instance

namespace Triangle

/-- `impl Surface for Triangle`: plane intersection, epsilon checks, the
three edge sign tests, barycentric weights, and normal interpolation. -/
def computeHit (t : Triangle) (ray : Ray) : Option Hit :=
  let faceNormal := t.computeNormal
  let tDenom := faceNormal.dot ray.direction
  if |tDenom| < 0.000001 then none
  else
    let planeBias := -(faceNormal.dot t.v0.toVec)
    let tt := -(faceNormal.dot ray.origin.toVec + planeBias) / tDenom
    if tt < minRayT then none
    else
      let hitPoint := ray.computePoint tt
      if isOnTheRight hitPoint t.v0 t.v1 faceNormal ∨
         isOnTheRight hitPoint t.v1 t.v2 faceNormal ∨
         isOnTheRight hitPoint t.v2 t.v0 faceNormal then none
      else
        let areaV0 := ((t.v1.sub t.v0).cross (hitPoint.sub t.v0)).norm / 2
        let areaV1 := ((t.v2.sub t.v1).cross (hitPoint.sub t.v1)).norm / 2
        let areaV2 := ((t.v0.sub t.v2).cross (hitPoint.sub t.v2)).norm / 2
        let area := areaV0 + areaV1 + areaV2
        let barCoords := (areaV0 / area, areaV1 / area, areaV2 / area)
        let normal :=
          (if t.normals.length > 0 then
            (((t.normals.getD t.indices.1 Vec3.zero).smul barCoords.2.1).add
              ((t.normals.getD t.indices.2.1 Vec3.zero).smul barCoords.2.2)).add
              ((t.normals.getD t.indices.2.2 Vec3.zero).smul barCoords.1)
          else
            (((t.calculatedNormals.getD t.indices.1 Vec3.zero).smul barCoords.2.1).add
              ((t.calculatedNormals.getD t.indices.2.1 Vec3.zero).smul barCoords.2.2)).add
              ((t.calculatedNormals.getD t.indices.2.2 Vec3.zero).smul barCoords.1)).normalize
        some ⟨tt, normal⟩

end Triangle

/-- BVH node: up to two directly-owned triangles or up to two child
subtrees, plus a bounding sphere and an axis-aligned box. -/
inductive BoundingVolumeHierarchy where
| node (triangleLeft triangleRight : Option Triangle)
       (bvhLeft bvhRight : Option BoundingVolumeHierarchy)
       (sphere : Sphere) (bbox : AxisAlignedBox)
       (vis : VisualData) (bvhLevel : ℕ)

namespace BoundingVolumeHierarchy

/-- `BoundingVolumeHierarchy::compute_sphere_from_triangles`: center is
the average of the triangle centers, radius the maximal vertex distance
from that center plus 0.001. -/
def computeSphereFromTriangles (ts : List Triangle) : Sphere :=
  let center := ts.foldl
    (fun acc t => acc.addVec ((t.computeCenter.toVec).smul (1 / (ts.length : ℝ))))
    Point.zero
  let maxDistance := ts.foldl
    (fun acc t => max acc (max (max (max 0 ((t.v0.sub center).norm))
      ((t.v1.sub center).norm)) ((t.v2.sub center).norm))) 0
  Sphere.fromPosition (maxDistance + 0.001) center

/-- `BoundingVolumeHierarchy::compute_bbox_from_triangles`: per-axis
min/max over all triangle vertices, padded by 0.00001.  The source folds
from `±INFINITY`; for the (asserted) nonempty list this equals folding
from the first element. -/
def computeBboxFromTriangles (ts : List Triangle) : AxisAlignedBox :=
  match ts with
  | [] => ⟨Point.zero, Point.zero⟩ -- unreachable: the source asserts nonemptiness
  | t :: rest =>
    let minP := rest.foldl
      (fun (acc : Point) tr =>
        ⟨min acc.x (tr.minDim 0), min acc.y (tr.minDim 1), min acc.z (tr.minDim 2)⟩)
      ⟨t.minDim 0, t.minDim 1, t.minDim 2⟩
    let maxP := rest.foldl
      (fun (acc : Point) tr =>
        ⟨max acc.x (tr.maxDim 0), max acc.y (tr.maxDim 1), max acc.z (tr.maxDim 2)⟩)
      ⟨t.maxDim 0, t.maxDim 1, t.maxDim 2⟩
    ⟨minP.addScalar (-0.00001), maxP.addScalar 0.00001⟩

/-- The comparator used by `triangles.sort_by(...partial_cmp...)`:
ascending x-coordinate of the triangle centers. -/
def centerLe (t1 t2 : Triangle) : Bool :=
  decide (t1.computeCenter.x ≤ t2.computeCenter.x)

/-- `BoundingVolumeHierarchy::from_triangles_list`: 1- and 2-triangle
base cases become leaves (the 2-triangle leaf records `bvh_level + 1`);
otherwise sort by center x, split at the median and recurse.  The empty
case is an `assert!` panic in the source and returns a junk leaf here. -/
def fromTrianglesList (ts : List Triangle) (bvhLevel : ℕ) : BoundingVolumeHierarchy :=
  if h1 : ts.length = 1 then
    node (some (ts.getD 0 default)) none none none
      (computeSphereFromTriangles ts) (computeBboxFromTriangles ts)
      (ts.getD 0 default).vis bvhLevel
  else if h2 : ts.length = 2 then
    node (some (ts.getD 0 default)) (some (ts.getD 1 default)) none none
      (computeSphereFromTriangles ts) (computeBboxFromTriangles ts)
      (ts.getD 0 default).vis (bvhLevel + 1)
  else if h0 : ts.length = 0 then
    node none none none none
      (computeSphereFromTriangles ts) (computeBboxFromTriangles ts)
      VisualData.zero bvhLevel
  else
    let sphere := computeSphereFromTriangles ts
    let bbox := computeBboxFromTriangles ts
    let sorted := ts.mergeSort centerLe
    let trianglesLeft := sorted.take (sorted.length / 2)
    let trianglesRight := sorted.drop (sorted.length / 2)
    node
      (if trianglesLeft.length = 1 then some (trianglesLeft.getD 0 default) else none)
      (if trianglesRight.length = 1 then some (trianglesRight.getD 0 default) else none)
      (if trianglesLeft.length = 1 then none
       else some (fromTrianglesList trianglesLeft (bvhLevel + 1)))
      (if trianglesRight.length = 1 then none
       else some (fromTrianglesList trianglesRight (bvhLevel + 1)))
      sphere bbox (trianglesLeft.getD 0 default).vis bvhLevel
termination_by ts.length
decreasing_by
· simp only [List.length_take, List.length_mergeSort]
  omega
· simp only [List.length_drop, List.length_mergeSort]
  omega

/-- `impl Surface for BoundingVolumeHierarchy`: prune on the bounding
box, honor the `bvh_level == 115` visualization escape, otherwise take
the closer of the two child candidate hits. -/
def computeHit : BoundingVolumeHierarchy → Ray → Option Hit
| node triangleLeft triangleRight bvhLeft bvhRight _sphere bbox _vis bvhLevel, ray =>
  match bbox.computeHit ray with
  | none => none
  | some bvHit =>
    if bvhLevel = 115 then some bvHit
    else
      let leftHit :=
        match triangleLeft with
        | some tri => tri.computeHit ray
        | none =>
          match bvhLeft with
          | some b => b.computeHit ray
          | none => none
      let rightHit :=
        match triangleRight with
        | some tri => tri.computeHit ray
        | none =>
          match bvhRight with
          | some b => b.computeHit ray
          | none => none
      match leftHit with
      | some lh =>
        match rightHit with
        | some rh => some (if lh.t < rh.t then lh else rh)
        | none => some lh
      | none => rightHit

end BoundingVolumeHierarchy

structure TriangleMesh where
  triangles : List Triangle
  positions : List Point
  calculatedNormals : List Vec3
  normals : List Vec3
  bvh : Option BoundingVolumeHierarchy
  vis : VisualData

namespace TriangleMesh

/-- `TriangleMesh::compute_slow_hit`: linear scan over all triangles
keeping the closest hit; the `Hit::inf()` sentinel becomes `Option`. -/
def computeSlowHit (m : TriangleMesh) (ray : Ray) : Option Hit :=
  m.triangles.foldl
    (fun closest tri =>
      match tri.computeHit ray with
      | some hit =>
        match closest with
        | some ch => if hit.t < ch.t then some hit else some ch
        | none => some hit
      | none => closest)
    none

/-- `impl Surface for TriangleMesh`: use the BVH when present. -/
def computeHit (m : TriangleMesh) (ray : Ray) : Option Hit :=
  match m.bvh with
  | some b => b.computeHit ray
  | none => m.computeSlowHit ray

end TriangleMesh

/-! ## Polymorphic surfaces (trait `Surface`, src/surface/surface.rs) -/

/-- The closed world of `Box<dyn Surface>` values a scene can own;
`TransformedSurface<S>` becomes a recursive wrapper carrying the
transformation together with its precomputed inverse and the transpose
of the inverse's linear part, as stored by `TransformedSurface::new`. -/
inductive SceneObject where
| sphere (s : Sphere)
| plane (p : Plane)
| ellipsoid (e : Ellipsoid)
| cone (c : Cone)
| mesh (m : TriangleMesh)
| transformed (transformation transformationInv : Transformation)
              (transformInvT : Mat3) (inner : SceneObject)

namespace SceneObject

/-- `TransformedSurface::new`: precompute the inverse and the transpose
of the inverse's linear part. -/
def transformedNew (transformation : Transformation) (inner : SceneObject) : SceneObject :=
  let transformationInv := transformation.computeInverse
  transformed transformation transformationInv
    transformationInv.transformMat.transpose inner

/-- `Surface::get_visual_data` dispatch. -/
def getVisualData : SceneObject → VisualData
| sphere s => s.vis
| plane p => p.vis
| ellipsoid e => e.vis
| cone c => c.vis
| mesh m => m.vis
| transformed _ _ _ inner => inner.getVisualData

/-- `Surface::compute_hit` dispatch.  The `RayOptions` argument is
accepted (as in the trait) and ignored by every implementation modelled
here.  `TransformedSurface::compute_hit` maps the ray to object space
(normalizing the mapped direction), delegates, then maps the hit point
back and recomputes `t` along the original world-space ray. -/
def computeHit : SceneObject → Ray → RayOptions → Option Hit
| sphere s, ray, _ => s.computeHit ray
| plane p, ray, _ => p.computeHit ray
| ellipsoid e, ray, _ => e.computeHit ray
| cone c, ray, _ => c.computeHit ray
| mesh m, ray, _ => m.computeHit ray
| transformed transformation transformationInv transformInvT inner, ray, opts =>
  let rayObject : Ray :=
    { origin := transformationInv.applyPoint ray.origin,
      direction := (transformationInv.applyVec ray.direction).normalize }
  match inner.computeHit rayObject opts with
  | some hit =>
    let hitPoint := transformation.applyPoint (rayObject.computePoint hit.t)
    some ⟨ray.computeT hitPoint, (transformInvT.mulVec hit.normal).normalize⟩
  | none => none

end SceneObject

/-! ## Camera (src/camera.rs) -/

inductive ProjectionType where
| parallel
| perspective

structure ViewingPlane where
  z : ℝ
  xMin : ℝ
  xMax : ℝ
  yMin : ℝ
  yMax : ℝ
  width : ℕ
  height : ℕ

namespace ViewingPlane

/-- `ViewingPlane::generate_uv_coords` (pixel coordinates are reals: the
scene code passes fractional supersampling positions). -/
def generateUvCoords (vp : ViewingPlane) (i j : ℝ) : ℝ × ℝ :=
  let xDist := vp.xMax - vp.xMin
  let yDist := vp.yMax - vp.yMin
  (vp.xMin + xDist * (i + 0.5) / (vp.width : ℝ),
   vp.yMin + yDist * (j + 0.5) / (vp.height : ℝ))

end ViewingPlane

structure Camera where
  origin : Point
  direction : Vec3
  up : Vec3
  right : Vec3
  projectionType : ProjectionType
  viewingPlane : ViewingPlane

namespace Camera

/-- `Camera::generate_ray`: perspective rays start at the camera origin
with an unnormalized direction combining the basis vectors; parallel
rays shift the origin inside the viewing plane. -/
def generateRay (cam : Camera) (i j : ℝ) : Ray :=
  let uv := cam.viewingPlane.generateUvCoords i j
  let d := cam.viewingPlane.z - cam.origin.z
  match cam.projectionType with
  | ProjectionType.perspective =>
    { origin := cam.origin,
      direction := ((cam.direction.smul (-d)).add (cam.right.smul uv.1)).add
        (cam.up.smul uv.2) }
  | ProjectionType.parallel =>
    { origin := (cam.origin.addVec (cam.right.smul uv.1)).addVec (cam.up.smul uv.2),
      direction := cam.direction.smul (-1) }

end Camera

/-! ## Lights, render options and the thread-local generator -/

/-- Modelled from the spec: `Light` (its canonical definition with the
area-light extents is not in the provided snapshot; fields per spec §3
and per usage in src/scene.rs and src/ray_tracer.rs). -/
structure Light where
  location : Point
  color : Color
  right : Vec3
  top : Vec3

/-- Modelled from the spec: the fields of `RenderOptions` consumed by
`Scene::compute_pixel`; the remaining fields configure scene
construction or display-only ray options and are irrelevant here. -/
structure RenderOptions where
  useSoftShadows : Bool
  useSupersampling : Bool

/-- The thread-local generator `rand::rngs::ThreadRng` is modelled as a
prefixed stream of reals: `gen::<f32>()` yields the value at the current
position and advances. -/
structure RngState where
  seq : ℕ → ℝ
  pos : ℕ

namespace RngState

def gen (g : RngState) : ℝ × RngState := (g.seq g.pos, ⟨g.seq, g.pos + 1⟩)

end RngState

/-- Modelled from the spec: `rand`'s `SliceRandom::shuffle` permutes a
list in place using the generator.  The permutation chosen does not
affect any property verified here (only the soft-shadow jitter order),
so it is modelled as the identity permutation that leaves the generator
untouched. -/
def shuffle (xs : List (Option (ℝ × ℝ))) (g : RngState) :
    List (Option (ℝ × ℝ)) × RngState := (xs, g)

/-- State-threading map (the `&mut rng` closures in iterator chains). -/
def mapRng {α β : Type} (xs : List α) (f : α → RngState → β × RngState) (g : RngState) :
    List β × RngState :=
  xs.foldl (fun acc x => let r := f x acc.2; (acc.1 ++ [r.1], r.2)) ([], g)

/-! ## Scene and the shading pipeline (src/scene.rs) -/

/-- `static NUM_DIST_RT_SAMPLES: i32 = 5`. -/
def numDistRtSamples : ℕ := 5

/-- `static NUM_GLOSSY_REFL_RAYS: i32 = 10`. -/
def numGlossyReflRays : ℕ := 10

structure Scene where
  objects : List SceneObject
  camera : Camera
  backgroundColor : Color
  lights : List Light
  ambientStrength : ℝ
  diffuseStrength : ℝ

namespace Scene

/-- The closest-hit loop opening `compute_ray_color` (fold over
`self.objects` from `Hit::inf()`; the infinity sentinel is `none`). -/
def findClosestHit (s : Scene) (ray : Ray) (opts : RayOptions) :
    Option (Hit × VisualData) :=
  s.objects.foldl
    (fun acc o =>
      match o.computeHit ray opts with
      | some anotherHit =>
        match acc with
        | some best => if anotherHit.t < best.1.t then some (anotherHit, o.getVisualData) else acc
        | none => some (anotherHit, o.getVisualData)
      | none => acc)
    none

/-- The effective light position for this ray: jittered inside the
light's `right`/`top` extents when a soft-shadow shift is present. -/
def lightLocation (opts : RayOptions) (light : Light) : Point :=
  match opts.lightShift with
  | some shift =>
    light.location.addVec ((light.right.smul shift.1).add (light.top.smul shift.2))
  | none => light.location

/-- The shadow predicate inside the per-light loop: some object
intersects the shadow ray strictly closer than the light. -/
def isInShadow (s : Scene) (opts : RayOptions) (shadowRay : Ray)
    (distanceToLight : ℝ) : Prop :=
  ∃ o ∈ s.objects, ∃ h, o.computeHit shadowRay opts = some h ∧ h.t < distanceToLight

noncomputable instance (s : Scene) (opts : RayOptions) (shadowRay : Ray)
    (distanceToLight : ℝ) : Decidable (s.isInShadow opts shadowRay distanceToLight) :=
  Classical.propDecidable _

/-- The ideal mirror-reflection direction computed in the reflection
block of `compute_ray_color`:
`ray.direction + hit.normal * (-2 * normalize(ray.direction) ⬝ hit.normal)`
(the dot product uses the normalized direction, the leading term the raw
one). -/
def reflectionDir (rayDirection normal : Vec3) : Vec3 :=
  rayDirection.add (normal.smul (-2 * rayDirection.normalize.dot normal))

/-- The glossy-basis selection: the first helper axis among
`(0, -z, y)`, `(-z, 0, x)`, `(-y, x, 0)` with nonzero norm, normalized. -/
def glossyU (reflDir : Vec3) : Vec3 :=
  let u0 : Vec3 := ⟨0, -reflDir.z, reflDir.y⟩
  let u1 := if u0.normSquared = 0 then (⟨-reflDir.z, 0, reflDir.x⟩ : Vec3) else u0
  let u2 := if u1.normSquared = 0 then (⟨-reflDir.y, reflDir.x, 0⟩ : Vec3) else u1
  u2.normalize

/-- Build the list of reflection rays (one mirror ray, or
`NUM_GLOSSY_REFL_RAYS` jittered rays when glossiness is positive),
drawing two generator values per glossy ray. -/
def reflectionRays (vis : VisualData) (hitPointCamera : Point) (reflDir : Vec3)
    (g : RngState) : List Ray × RngState :=
  if vis.reflectionGlossiness > 0 then
    let u := glossyU reflDir
    let v := (reflDir.cross u).normalize
    mapRng (List.range numGlossyReflRays)
      (fun _ g0 =>
        let r1 := g0.gen
        let r2 := r1.2.gen
        let uWeight := vis.reflectionGlossiness * (r1.1 - 0.5)
        let vWeight := vis.reflectionGlossiness * (r2.1 - 0.5)
        ((⟨hitPointCamera.addVec (reflDir.smul 0.0001),
            (reflDir.add (u.smul uWeight)).add (v.smul vWeight)⟩ : Ray), r2.2))
      g
  else
    ([{ origin := hitPointCamera.addVec (reflDir.smul 0.0001), direction := reflDir }], g)

/-- The body of the `for light_camera in self.lights` loop of
`compute_ray_color`, threading the generator.  `recur` performs the
recursive `compute_ray_color` call for reflection rays (one recursion
level lower). -/
def processLight (recur : Ray → RngState → RayOptions → Color × RngState)
    (s : Scene) (rayCamera : Ray) (opts : RayOptions)
    (hit : Hit) (vis : VisualData) (hitPointCamera : Point)
    (acc : Color × RngState) (light : Light) : Color × RngState :=
  let color := acc.1
  let lightLoc := lightLocation opts light
  let distanceToLight := (lightLoc.sub hitPointCamera).norm
  let lightDir := (lightLoc.sub hitPointCamera).normalize
  let shadowRay : Ray :=
    { origin := hitPointCamera.addVec (lightDir.smul 0.0001), direction := lightDir }
  let color1 :=
    if ¬ s.isInShadow opts shadowRay distanceToLight then
      let diffuseCos := max (hit.normal.dot lightDir.normalize) 0
      color.add (light.color.smul (diffuseCos * s.diffuseStrength))
    else color
  let color2 :=
    if vis.specularStrength > 0 then
      let eyeDir := (s.camera.origin.sub hitPointCamera).normalize
      let halfVector := (eyeDir.add lightDir).normalize
      let specStrength :=
        vis.specularStrength * (max (hit.normal.dot halfVector) 0) ^ (64 : ℕ)
      color1.add (light.color.smul specStrength)
    else color1
  let step3 :=
    if opts.depth = 0 ∧ vis.reflectionStrength > 0 then
      let reflDir := reflectionDir rayCamera.direction hit.normal
      let raysG := reflectionRays vis hitPointCamera reflDir acc.2
      let traced := raysG.1.foldl
        (fun (tr : Color × RngState) r =>
          let res := recur r tr.2 opts.incrementDepth
          (tr.1.add (res.1.smul (1 / (raysG.1.length : ℝ))), res.2))
        (Color.zero, raysG.2)
      (color2.add (traced.1.smul vis.reflectionStrength), traced.2)
    else (color2, acc.2)
  (step3.1.clamp, step3.2)

/-- `Scene::compute_ray_color`, with an explicit recursion allowance:
`fuel = n + 1` performs the body and allows `n` further recursion
levels.  Since the reflection block is guarded by `depth == 0` and
recursive calls increment the depth, the source's recursion provably
never goes past one extra level; `computeRayColor` below fixes
`fuel = 2`, and the fuel-0 base value is unreachable from it. -/
def computeRayColorFuel : ℕ → Scene → Ray → RngState → RayOptions → Color × RngState
| 0, _, _, g, _ => (Color.zero, g)
| fuel + 1, s, rayCamera, g, opts =>
  match s.findClosestHit rayCamera opts with
  | none => (s.backgroundColor, g)
  | some hitVis =>
    let hit := hitVis.1
    let vis := hitVis.2
    let color0 := vis.color.smul s.ambientStrength
    let hitPointCamera := rayCamera.computePoint hit.t
    s.lights.foldl
      (processLight (computeRayColorFuel fuel s) s rayCamera opts hit vis hitPointCamera)
      (color0, g)

/-- `Scene::compute_ray_color` as called by the renderer. -/
def computeRayColor (s : Scene) (rayCamera : Ray) (g : RngState) (opts : RayOptions) :
    Color × RngState :=
  computeRayColorFuel 2 s rayCamera g opts

/-- The `iproduct!(0..5, 0..5)` sample grid. -/
def sampleGrid : List (ℕ × ℕ) :=
  (List.range numDistRtSamples).flatMap
    (fun a => (List.range numDistRtSamples).map (fun b => (a, b)))

/-- `Scene::compute_pixel`: one centered primary ray or a 5x5 jittered
grid, 25 soft-shadow light shifts (shuffled) or `None`s, then the
average of the per-ray colors (the scale-by-`1/n` and the accumulation
both clamp, as in the `Mul`/`Add` impls for `Color`). -/
def computePixel (s : Scene) (i j : ℕ) (renderOptions : RenderOptions)
    (g : RngState) : Color :=
  let raysG :=
    if renderOptions.useSupersampling then
      mapRng sampleGrid
        (fun p g0 =>
          let r1 := g0.gen
          let r2 := r1.2.gen
          (s.camera.generateRay
            ((i : ℝ) + (p.1 : ℝ) / (numDistRtSamples : ℝ) + r1.1)
            ((j : ℝ) + (p.2 : ℝ) / (numDistRtSamples : ℝ) + r2.1), r2.2))
        g
    else ([s.camera.generateRay ((i : ℝ) + 0.5) ((j : ℝ) + 0.5)], g)
  let shiftsG :=
    if renderOptions.useSoftShadows then
      let built := mapRng sampleGrid
        (fun p g0 =>
          let r1 := g0.gen
          let r2 := r1.2.gen
          (some ((p.1 : ℝ) / (numDistRtSamples : ℝ) + r1.1,
                 (p.2 : ℝ) / (numDistRtSamples : ℝ) + r2.1), r2.2))
        raysG.2
      shuffle built.1 built.2
    else (List.replicate 25 none, raysG.2)
  let total := (raysG.1.enum).foldl
    (fun (acc : Color × RngState) pair =>
      let res := computeRayColor s pair.2 acc.2
        { depth := 0, lightShift := shiftsG.1.getD pair.1 none }
      (acc.1.add (res.1.smul (1 / (raysG.1.length : ℝ))), res.2))
    (Color.zero, shiftsG.2)
  total.1

end Scene

/-! ## Proof-auxiliary predicates and concrete fixtures -/

/-- Both channels bounds at once: every channel lies in `[0, 1]`. -/
def Color.inRange (c : Color) : Prop :=
  0 ≤ c.r ∧ c.r ≤ 1 ∧ 0 ≤ c.g ∧ c.g ≤ 1 ∧ 0 ≤ c.b ∧ c.b ≤ 1

/-- Proof auxiliary: combine two optional hit parameters, keeping the
smaller (the sentinel `none` stands for "no hit"). -/
def combineMinT : Option ℝ → Option ℝ → Option ℝ
| none, b => b
| a, none => a
| some x, some y => some (min x y)

/-- Proof auxiliary: the smallest triangle-hit parameter over a list of
triangles — the mathematical specification both the linear scan and the
BVH traversal are compared against. -/
def minHitT (ts : List Triangle) (ray : Ray) : Option ℝ :=
  ts.foldl (fun acc tri => combineMinT acc (Option.map Hit.t (tri.computeHit ray))) none

/-- A deterministic generator fixture. -/
def rng0 : RngState := ⟨fun _ => 0, 0⟩

/-- A camera fixture (values irrelevant to the properties below). -/
def camera0 : Camera :=
  ⟨⟨0, 1, 0⟩, ⟨0, 0, 1⟩, ⟨0, 1, 0⟩, ⟨1, 0, 0⟩, ProjectionType.perspective,
   ⟨1, -1, 1, -1, 1, 1, 1⟩⟩

/-- A scene with no objects and no lights. -/
def emptyScene : Scene := ⟨[], camera0, ⟨0.2, 0.3, 0.4⟩, [], 0.7, 0.5⟩

/-- Material of the shadowed floor plane in the shadow fixture:
white, specular strength 1/2, no reflection. -/
def cexVis : VisualData := ⟨⟨1, 1, 1⟩, 1 / 2, 0, 0⟩

/-- Floor plane `y = 0` with upward normal. -/
def cexPlane : Plane := ⟨⟨0, 0, 0⟩, ⟨0, 1, 0⟩, cexVis⟩

/-- Occluder plane `y = 2` between the floor and the light. -/
def cexBlocker : Plane := ⟨⟨0, 2, 0⟩, ⟨0, 1, 0⟩, VisualData.zero⟩

/-- Point light straight above the hit point, beyond the occluder. -/
def cexLight : Light := ⟨⟨0, 3, 0⟩, ⟨1, 1, 1⟩, ⟨0, 0, 0⟩, ⟨0, 0, 0⟩⟩

/-- Shadow-fixture scene: floor plus occluder, one light, zero ambient. -/
def cexScene : Scene :=
  ⟨[SceneObject.plane cexPlane, SceneObject.plane cexBlocker], camera0,
   ⟨0, 0, 0⟩, [cexLight], 0, 1⟩

/-- Primary ray hitting the floor at the origin. -/
def cexRay : Ray := ⟨⟨0, 1, 0⟩, ⟨0, -1, 0⟩⟩

/-- The shadow ray `compute_ray_color` casts from that hit point. -/
def cexShadowRay : Ray := ⟨⟨0, 0.0001, 0⟩, ⟨0, 1, 0⟩⟩

/-- A reflective, non-glossy material fixture. -/
def cexVisRefl : VisualData := ⟨⟨1, 0, 0⟩, 0, 1 / 2, 0⟩

/-- C2 counterexample fixture: one triangle at distance `10^15`. -/
noncomputable def c2FarTri : Triangle :=
  ⟨(0, 1, 2), [⟨0, 0, 1e15⟩, ⟨1, 0, 1e15⟩, ⟨0, 1, 1e15⟩], [], [], VisualData.zero⟩

/-- Mesh owning that far triangle, with its BVH built at level 0. -/
noncomputable def c2FarMesh : TriangleMesh :=
  ⟨[c2FarTri], [⟨0, 0, 1e15⟩, ⟨1, 0, 1e15⟩, ⟨0, 1, 1e15⟩], [], [],
    some (BoundingVolumeHierarchy.fromTrianglesList [c2FarTri] 0), VisualData.zero⟩

/-- Ray through the far (and the near) triangle, along `+z`. -/
noncomputable def c2FarRay : Ray := ⟨⟨0.25, 0.25, 0⟩, ⟨0, 0, 1⟩⟩

/-- C2 witness fixture: the same triangle moved to `z = 1`. -/
noncomputable def c2NearTri : Triangle :=
  ⟨(0, 1, 2), [⟨0, 0, 1⟩, ⟨1, 0, 1⟩, ⟨0, 1, 1⟩], [], [], VisualData.zero⟩

/-- Mesh owning the near triangle, with its BVH built at level 0. -/
noncomputable def c2NearMesh : TriangleMesh :=
  ⟨[c2NearTri], [⟨0, 0, 1⟩, ⟨1, 0, 1⟩, ⟨0, 1, 1⟩], [], [],
    some (BoundingVolumeHierarchy.fromTrianglesList [c2NearTri] 0), VisualData.zero⟩

/-! # Theorems -/

/-! ## Shared evaluation helpers -/

theorem sqrtOne : Real.sqrt 1 = 1 := Real.sqrt_one

theorem sqrtFour : Real.sqrt 4 = 2 := by
  rw [show (4 : ℝ) = 2 ^ 2 by norm_num, Real.sqrt_sq (by norm_num : (0 : ℝ) ≤ 2)]

theorem sqrtSixtyFourOverTwentyFive : Real.sqrt (64 / 25) = 8 / 5 := by
  rw [show (64 / 25 : ℝ) = (8 / 5) ^ 2 by norm_num,
    Real.sqrt_sq (by norm_num : (0 : ℝ) ≤ 8 / 5)]

theorem sqrtNine : Real.sqrt 9 = 3 := by
  rw [show (9 : ℝ) = 3 ^ 2 by norm_num, Real.sqrt_sq (by norm_num : (0 : ℝ) ≤ 3)]

theorem clamp01_idem (x : ℝ) : min (max (min (max x 0) 1) 0) 1 = min (max x 0) 1 := by
  rw [max_eq_left (le_min (le_max_right _ _) zero_le_one), min_eq_left (min_le_right _ _)]

theorem colorClamp_clamp (c : Color) : c.clamp.clamp = c.clamp := by
  ext <;> exact clamp01_idem _

theorem colorAdd_clamp (a b : Color) : (a.add b).clamp = a.add b := colorClamp_clamp _

/-! ## C6 — affine composition -/

/-- C6 (counterexample): with `A` the identity and `B` a transformation
whose linear part is the non-symmetric matrix with single entry
`B[0][1] = 1`, the source's composition (which multiplies by the
transpose of `B`'s linear part) maps `p = (1,0,0)` to `(0,1,0)`, whereas
applying `B` then `A` maps it to `(0,0,0)`; so `(A*B) p = A (B p)` fails. -/
theorem c6_compose_counterexample :
    ((Transformation.identity.compose
        ⟨⟨⟨0, 1, 0⟩, ⟨0, 0, 0⟩, ⟨0, 0, 0⟩⟩, Vec3.zero⟩).applyPoint ⟨1, 0, 0⟩
      = (⟨0, 1, 0⟩ : Point)) ∧
    (Transformation.identity.applyPoint
        ((⟨⟨⟨0, 1, 0⟩, ⟨0, 0, 0⟩, ⟨0, 0, 0⟩⟩, Vec3.zero⟩ : Transformation).applyPoint
          ⟨1, 0, 0⟩)
      = (⟨0, 0, 0⟩ : Point)) ∧
    ((⟨0, 1, 0⟩ : Point) ≠ (⟨0, 0, 0⟩ : Point)) := by
  refine ⟨?_, ?_, ?_⟩
  · simp [Transformation.compose, Transformation.applyPoint, Transformation.identity,
      Mat3.mul, Mat3.mulVec, Mat3.transpose, Mat3.identity, Vec3.dot, Vec3.add,
      Vec3.zero, Point.toVec, Vec3.toPoint, Point.mk.injEq]
  · simp [Transformation.applyPoint, Transformation.identity, Mat3.mulVec,
      Mat3.identity, Vec3.dot, Vec3.add, Vec3.zero, Point.toVec, Vec3.toPoint,
      Point.mk.injEq]
  · simp [Point.mk.injEq]

/-- C6 (amended): since `Mat3`'s `Mul` is the standard matrix product,
the source's transformation composition multiplies `A`'s linear part by
the *transpose* of `B`'s linear part.  Consequently, for every `A`, `B`
and point `p`, `(A*B) p` equals `A` applied to the image of `p` under
`B` with its linear part transposed — so the claimed composition law
`(A*B) p = A (B p)` holds exactly when `B`'s linear part is symmetric,
and fails otherwise (see the counterexample). -/
theorem c6_compose_transposed (a b : Transformation) (p : Point) :
    (a.compose b).applyPoint p = a.applyPoint (b.transposeLinear.applyPoint p) := by
  ext <;>
    simp [Transformation.compose, Transformation.applyPoint,
      Transformation.transposeLinear, Mat3.mul, Mat3.mulVec, Mat3.transpose,
      Vec3.dot, Vec3.add, Point.toVec, Vec3.toPoint] <;>
    ring

/-! ## C5 — quadratic root helper -/

/-- C5: for a quadratic with `a ≠ 0`: a negative discriminant yields no
hit; a zero discriminant yields the single root `-b/(2a)`, accepted iff
it is `≥ MIN_RAY_T`; a positive discriminant yields `some t` exactly for
the smallest of the two roots that is `≥ MIN_RAY_T`, and `none` exactly
when neither root reaches the threshold. -/
theorem c5_root_selection (a b c : ℝ) (ha : a ≠ 0) :
    (b * b - 4 * a * c < 0 →
      (findSquareRoots a b c).bind selectSmallestPositiveRoot = none) ∧
    (b * b - 4 * a * c = 0 →
      (findSquareRoots a b c).bind selectSmallestPositiveRoot =
        if -b / (2 * a) ≥ minRayT then some (-b / (2 * a)) else none) ∧
    (0 < b * b - 4 * a * c →
      (∀ t : ℝ,
        ((findSquareRoots a b c).bind selectSmallestPositiveRoot = some t ↔
          ((t = (-b - Real.sqrt (b * b - 4 * a * c)) / (2 * a) ∨
            t = (-b + Real.sqrt (b * b - 4 * a * c)) / (2 * a)) ∧
           minRayT ≤ t ∧
           ∀ u : ℝ,
             (u = (-b - Real.sqrt (b * b - 4 * a * c)) / (2 * a) ∨
              u = (-b + Real.sqrt (b * b - 4 * a * c)) / (2 * a)) →
             minRayT ≤ u → t ≤ u))) ∧
      ((findSquareRoots a b c).bind selectSmallestPositiveRoot = none ↔
        ((-b - Real.sqrt (b * b - 4 * a * c)) / (2 * a) < minRayT ∧
         (-b + Real.sqrt (b * b - 4 * a * c)) / (2 * a) < minRayT))) := by
  refine ⟨?_, ?_, ?_⟩
  · intro hD
    simp only [findSquareRoots]
    rw [if_pos hD]
    rfl
  · intro hD
    simp only [findSquareRoots]
    rw [if_neg (by linarith), if_pos hD]
    simp only [Option.some_bind, selectSmallestPositiveRoot]
  · intro hD
    have hfind : findSquareRoots a b c =
        some ((-b - Real.sqrt (b * b - 4 * a * c)) / (2 * a),
          some ((-b + Real.sqrt (b * b - 4 * a * c)) / (2 * a))) := by
      simp only [findSquareRoots]
      rw [if_neg (by linarith), if_neg (by linarith)]
    set r0 := (-b - Real.sqrt (b * b - 4 * a * c)) / (2 * a) with hr0
    set r1 := (-b + Real.sqrt (b * b - 4 * a * c)) / (2 * a) with hr1
    rw [hfind]
    simp only [Option.some_bind, selectSmallestPositiveRoot]
    rcases lt_or_ge r0 minRayT with h0 | h0
    · rcases lt_or_ge r1 minRayT with h1 | h1
      · simp only [if_pos h0, if_pos h1]
        refine ⟨fun t => ⟨fun h => Option.noConfusion h, ?_⟩, by simp [h0, h1]⟩
        rintro ⟨rfl | rfl, htm, _⟩ <;> linarith
      · simp only [if_pos h0, if_neg (not_lt.mpr h1)]
        refine ⟨fun t => ⟨?_, ?_⟩, ?_⟩
        · intro h
          injection h with h
          subst h
          exact ⟨Or.inr rfl, h1, by rintro u (rfl | rfl) hu <;> [linarith; exact le_rfl]⟩
        · rintro ⟨rfl | rfl, htm, _⟩
          · linarith
          · rfl
        · simp [h0, not_lt.mpr h1]
    · rcases lt_or_ge r1 minRayT with h1 | h1
      · simp only [if_neg (not_lt.mpr h0), if_pos h1]
        refine ⟨fun t => ⟨?_, ?_⟩, ?_⟩
        · intro h
          injection h with h
          subst h
          exact ⟨Or.inl rfl, h0, by rintro u (rfl | rfl) hu <;> [exact le_rfl; linarith]⟩
        · rintro ⟨rfl | rfl, htm, _⟩
          · rfl
          · linarith
        · simp [not_lt.mpr h0, h1]
      · simp only [if_neg (not_lt.mpr h0), if_neg (not_lt.mpr h1)]
        refine ⟨fun t => ⟨?_, ?_⟩, ?_⟩
        · intro h
          injection h with h
          subst h
          refine ⟨min_choice r0 r1, le_min h0 h1, ?_⟩
          · rintro u (rfl | rfl) hu
            · exact min_le_left _ _
            · exact min_le_right _ _
        · rintro ⟨ht, htm, hmin⟩
          have hle0 : t ≤ r0 := hmin r0 (Or.inl rfl) h0
          have hle1 : t ≤ r1 := hmin r1 (Or.inr rfl) h1
          have : t = min r0 r1 := by
            rcases ht with rfl | rfl
            · exact le_antisymm (le_min hle0 hle1) (min_le_left _ _)
            · exact le_antisymm (le_min hle0 hle1) (min_le_right _ _)
          rw [this]
        · constructor
          · intro h
            cases h
          · rintro ⟨hc, _⟩
            linarith

/-- C5 (witness): the quadratic `t^2 - 5t + 6` has roots 2 and 3; the
helper pair selects the smaller root 2. -/
theorem c5_root_selection_witness :
    (findSquareRoots 1 (-5) 6).bind selectSmallestPositiveRoot = some 2 := by
  have h := ((c5_root_selection 1 (-5) 6 (by norm_num)).2.2 (by norm_num)).1 2
  apply h.mpr
  have hs : Real.sqrt ((-5 : ℝ) * (-5) - 4 * 1 * 6) = 1 := by
    rw [show ((-5 : ℝ) * (-5) - 4 * 1 * 6) = 1 by norm_num, Real.sqrt_one]
  refine ⟨Or.inl (by rw [hs]; norm_num), by norm_num [minRayT], ?_⟩
  rintro u (rfl | rfl) hu <;> rw [hs] <;> norm_num

/-! ## C7 — triangle centroid used by the BVH build -/

/-- C7 (code bug): `Triangle::compute_center` sums
`positions[indices.0] + positions[indices.1] + positions[indices.0]`,
using the first vertex twice and never the third.  For the triangle with
vertices `(0,0,0)`, `(3,0,0)`, `(0,3,0)` the code yields `(1,0,0)`
instead of the centroid `(1,1,0)`, and the result does not depend on the
third vertex at all. -/
theorem c7_compute_center_ignores_third_vertex :
    (Triangle.computeCenter
        ⟨(0, 1, 2), [⟨0, 0, 0⟩, ⟨3, 0, 0⟩, ⟨0, 3, 0⟩], [], [], VisualData.zero⟩
      = (⟨1, 0, 0⟩ : Point)) ∧
    ((⟨1, 0, 0⟩ : Point) ≠ (⟨1, 1, 0⟩ : Point)) ∧
    (∀ q : Point,
      Triangle.computeCenter ⟨(0, 1, 2), [⟨0, 0, 0⟩, ⟨3, 0, 0⟩, q], [], [], VisualData.zero⟩
        = (⟨1, 0, 0⟩ : Point)) := by
  refine ⟨?_, by simp [Point.mk.injEq], fun q => ?_⟩ <;>
    · simp only [Triangle.computeCenter, Triangle.v0, Triangle.v1, Triangle.v2,
        Point.toVec, Vec3.toPoint, Vec3.add, Vec3.smul, Point.zero, List.getD,
        Point.mk.injEq]
      norm_num

/-! ## C3 — law of reflection for the computed reflection direction -/

/-- C3 (code bug): the reflection direction in `compute_ray_color` is
`d + n * (-2 * normalize(d)·n)` — the dot product uses the normalized
direction but the leading term the raw one, so for a non-unit incoming
direction the law of reflection fails.  For `d = (2,0,0)` and the unit
normal `n = (3/5, 4/5, 0)`: `normalize(d)·n = 3/5`, but the computed
direction `r = (32/25, -24/25, 0)` satisfies `-normalize(r)·n = 0`, so
the claimed equality `normalize(d)·n = -normalize(r)·n` is false (the
true mirror direction would be `d - 2(d·n)n = (14/25, -48/25, 0)`). -/
theorem c3_reflection_law_fails :
    ((⟨3 / 5, 4 / 5, 0⟩ : Vec3).norm = 1) ∧
    ((Vec3.normalize ⟨2, 0, 0⟩).dot ⟨3 / 5, 4 / 5, 0⟩ = 3 / 5) ∧
    (Scene.reflectionDir ⟨2, 0, 0⟩ ⟨3 / 5, 4 / 5, 0⟩ = (⟨32 / 25, -24 / 25, 0⟩ : Vec3)) ∧
    (-((Vec3.normalize (Scene.reflectionDir ⟨2, 0, 0⟩ ⟨3 / 5, 4 / 5, 0⟩)).dot
        ⟨3 / 5, 4 / 5, 0⟩) = 0) ∧
    ((3 / 5 : ℝ) ≠ 0) := by
  have hn2 : Vec3.norm ⟨2, 0, 0⟩ = 2 := by
    simp only [Vec3.norm, Vec3.normSquared]
    rw [show ((2 : ℝ) ^ 2 + 0 ^ 2 + 0 ^ 2) = 4 by norm_num, sqrtFour]
  have hrefl : Scene.reflectionDir ⟨2, 0, 0⟩ ⟨3 / 5, 4 / 5, 0⟩
      = (⟨32 / 25, -24 / 25, 0⟩ : Vec3) := by
    simp only [Scene.reflectionDir, Vec3.normalize, hn2, Vec3.dot, Vec3.smul, Vec3.add]
    ext <;> norm_num
  have hnr : Vec3.norm ⟨32 / 25, -24 / 25, 0⟩ = 8 / 5 := by
    simp only [Vec3.norm, Vec3.normSquared]
    rw [show ((32 / 25 : ℝ) ^ 2 + (-24 / 25) ^ 2 + 0 ^ 2) = 64 / 25 by norm_num,
      sqrtSixtyFourOverTwentyFive]
  refine ⟨?_, ?_, hrefl, ?_, by norm_num⟩
  · simp only [Vec3.norm, Vec3.normSquared]
    rw [show ((3 / 5 : ℝ) ^ 2 + (4 / 5) ^ 2 + 0 ^ 2) = 1 by norm_num, sqrtOne]
  · simp only [Vec3.normalize, hn2, Vec3.dot]
    norm_num
  · rw [hrefl]
    simp only [Vec3.normalize, hnr, Vec3.dot]
    norm_num

/-! ## C4 — output colors stay inside [0,1] -/

theorem colorClamp_inRange (c : Color) : c.clamp.inRange :=
  ⟨le_min (le_max_right _ _) zero_le_one, min_le_right _ _,
   le_min (le_max_right _ _) zero_le_one, min_le_right _ _,
   le_min (le_max_right _ _) zero_le_one, min_le_right _ _⟩

theorem colorAdd_inRange (a b : Color) : (a.add b).inRange := colorClamp_inRange _

theorem colorZero_inRange : Color.zero.inRange := colorClamp_inRange _

theorem foldl_add_inRange {α β : Type} (step : Color × β → α → Color × β)
    (hstep : ∀ acc x, ∃ d b2, step acc x = (acc.1.add d, b2)) :
    ∀ (l : List α) (acc : Color × β), acc.1.inRange → ((l.foldl step acc).1).inRange := by
  intro l
  induction l with
  | nil => exact fun acc h => h
  | cons x xs ih =>
    intro acc h
    simp only [List.foldl_cons]
    apply ih
    obtain ⟨d, b2, hs⟩ := hstep acc x
    rw [hs]
    exact colorAdd_inRange _ _

/-- C4: for every pixel coordinate and arbitrary render options (both
flags free) each channel of the color returned by `compute_pixel` lies
in [0,1]: the per-ray scaling `Mul<f32>` and the accumulation
`Add<&Color>` both clamp, and the accumulator starts from the clamped
zero color. -/
theorem c4_pixel_channels_in_unit_range (s : Scene) (i j : ℕ)
    (renderOptions : RenderOptions) (g : RngState) :
    0 ≤ (s.computePixel i j renderOptions g).r ∧
    (s.computePixel i j renderOptions g).r ≤ 1 ∧
    0 ≤ (s.computePixel i j renderOptions g).g ∧
    (s.computePixel i j renderOptions g).g ≤ 1 ∧
    0 ≤ (s.computePixel i j renderOptions g).b ∧
    (s.computePixel i j renderOptions g).b ≤ 1 := by
  have key : (s.computePixel i j renderOptions g).inRange := by
    unfold Scene.computePixel
    exact foldl_add_inRange _ (fun acc x => ⟨_, _, rfl⟩) _ _ colorZero_inRange
  exact key

/-! ## C8 — reflection recursion is exactly one level deep -/

theorem processLight_depth_pos
    (r₁ r₂ : Ray → RngState → RayOptions → Color × RngState)
    (s : Scene) (ray : Ray) (opts : RayOptions) (hit : Hit) (vis : VisualData)
    (hp : Point) (acc : Color × RngState) (light : Light) (hd : opts.depth ≠ 0) :
    Scene.processLight r₁ s ray opts hit vis hp acc light =
      Scene.processLight r₂ s ray opts hit vis hp acc light := by
  have hX : ¬(opts.depth = 0 ∧ vis.reflectionStrength > 0) := fun h => hd h.1
  simp only [Scene.processLight, if_neg hX]

theorem processLight_recur_congr
    (r₁ r₂ : Ray → RngState → RayOptions → Color × RngState)
    (s : Scene) (ray : Ray) (opts : RayOptions) (hit : Hit) (vis : VisualData)
    (hp : Point) (acc : Color × RngState) (light : Light)
    (hrec : ∀ r g, r₁ r g opts.incrementDepth = r₂ r g opts.incrementDepth) :
    Scene.processLight r₁ s ray opts hit vis hp acc light =
      Scene.processLight r₂ s ray opts hit vis hp acc light := by
  simp only [Scene.processLight, hrec]

/-- One-step unfolding of `computeRayColorFuel` at successor fuel. -/
theorem computeRayColorFuel_succ (n : ℕ) (s : Scene) (ray : Ray) (g : RngState)
    (opts : RayOptions) :
    Scene.computeRayColorFuel (n + 1) s ray g opts =
      match s.findClosestHit ray opts with
      | none => (s.backgroundColor, g)
      | some hv =>
        s.lights.foldl
          (Scene.processLight (Scene.computeRayColorFuel n s) s ray opts hv.1 hv.2
            (ray.computePoint hv.1.t))
          (hv.2.color.smul s.ambientStrength, g) := rfl

theorem computeRayColorFuel_depth_pos (n : ℕ) (s : Scene) (ray : Ray)
    (g : RngState) (opts : RayOptions) (hd : opts.depth ≠ 0) :
    Scene.computeRayColorFuel (n + 1) s ray g opts =
      Scene.computeRayColorFuel 1 s ray g opts := by
  rw [computeRayColorFuel_succ, show (1 : ℕ) = 0 + 1 from rfl, computeRayColorFuel_succ]
  cases hfc : s.findClosestHit ray opts with
  | none => rfl
  | some hv =>
    dsimp only
    have hstep :
        Scene.processLight (Scene.computeRayColorFuel n s) s ray opts hv.1 hv.2
            (ray.computePoint hv.1.t) =
          Scene.processLight (Scene.computeRayColorFuel 0 s) s ray opts hv.1 hv.2
            (ray.computePoint hv.1.t) := by
      funext acc light
      exact processLight_depth_pos _ _ _ _ _ _ _ _ _ _ hd
    rw [hstep]

theorem computeRayColorFuel_stable (n : ℕ) (s : Scene) (ray : Ray)
    (g : RngState) (opts : RayOptions) :
    Scene.computeRayColorFuel (n + 2) s ray g opts =
      Scene.computeRayColorFuel 2 s ray g opts := by
  rw [show n + 2 = (n + 1) + 1 from rfl, computeRayColorFuel_succ,
    show (2 : ℕ) = 1 + 1 from rfl, computeRayColorFuel_succ]
  cases hfc : s.findClosestHit ray opts with
  | none => rfl
  | some hv =>
    dsimp only
    have hstep :
        Scene.processLight (Scene.computeRayColorFuel (n + 1) s) s ray opts hv.1 hv.2
            (ray.computePoint hv.1.t) =
          Scene.processLight (Scene.computeRayColorFuel 1 s) s ray opts hv.1 hv.2
            (ray.computePoint hv.1.t) := by
      funext acc light
      exact processLight_recur_congr _ _ _ _ _ _ _ _ _ _
        (fun r g' => computeRayColorFuel_depth_pos n s r g' opts.incrementDepth
          (by simp [RayOptions.incrementDepth]))
    rw [hstep]

/-- C8: the reflection recursion of `compute_ray_color` is bounded to
exactly one extra level.  (i) Invoked at any nonzero depth, the result
does not depend on the remaining recursion allowance at all — no
reflection ray is spawned there; (ii) an allowance of two levels (the
value used by `computeRayColor`) is already maximal: any larger
allowance produces the same result; (iii) `increment_depth` raises the
depth by one, so reflection rays spawned at depth 0 are traced at
depth 1, where (i) applies. -/
theorem c8_reflection_one_level (n : ℕ) (s : Scene) (ray : Ray) (g : RngState)
    (opts : RayOptions) :
    (opts.depth ≠ 0 →
      Scene.computeRayColorFuel (n + 1) s ray g opts =
        Scene.computeRayColorFuel 1 s ray g opts) ∧
    (Scene.computeRayColorFuel (n + 2) s ray g opts =
      Scene.computeRayColor s ray g opts) ∧
    (RayOptions.incrementDepth opts).depth = opts.depth + 1 :=
  ⟨fun hd => computeRayColorFuel_depth_pos n s ray g opts hd,
   computeRayColorFuel_stable n s ray g opts, rfl⟩

/-- C8 (witness): at depth 1 on a concrete scene, allowance 3 and
allowance 1 coincide. -/
theorem c8_reflection_one_level_witness :
    Scene.computeRayColorFuel 3 emptyScene cexRay rng0 ⟨1, none⟩ =
      Scene.computeRayColorFuel 1 emptyScene cexRay rng0 ⟨1, none⟩ :=
  (c8_reflection_one_level 2 emptyScene cexRay rng0 ⟨1, none⟩).1 (by norm_num)

/-! ## C10 — the reflection term is added once per light -/

/-- C10: in `compute_ray_color` at depth 0, for a material with positive
reflection strength, the reflection rays are traced and their averaged
color is added *inside the per-light loop body*: (i) every single
`processLight` step — for every light — traces the reflection rays from
the current generator state and adds
`reflection_strength * reflection_color` on top of the diffuse/specular
result for that light; (ii) `compute_ray_color` folds this body over
`self.lights`, so with `n` lights the reflected color term is traced and
accumulated `n` times rather than once per ray. -/
theorem c10_reflection_added_per_light
    (recur : Ray → RngState → RayOptions → Color × RngState) (n : ℕ)
    (s : Scene) (ray : Ray) (g : RngState) (opts : RayOptions) (hit : Hit)
    (vis : VisualData) (hp : Point) (acc : Color × RngState) (light : Light)
    (h0 : opts.depth = 0) (hr : vis.reflectionStrength > 0) :
    (Scene.processLight recur s ray opts hit vis hp acc light =
      (let lightLoc := Scene.lightLocation opts light
       let distanceToLight := (lightLoc.sub hp).norm
       let lightDir := (lightLoc.sub hp).normalize
       let shadowRay : Ray := ⟨hp.addVec (lightDir.smul 0.0001), lightDir⟩
       let color1 :=
         if ¬ s.isInShadow opts shadowRay distanceToLight then
           acc.1.add (light.color.smul
             (max (hit.normal.dot lightDir.normalize) 0 * s.diffuseStrength))
         else acc.1
       let color2 :=
         if vis.specularStrength > 0 then
           color1.add (light.color.smul (vis.specularStrength *
             (max (hit.normal.dot
               (((s.camera.origin.sub hp).normalize).add lightDir).normalize) 0) ^ (64 : ℕ)))
         else color1
       let raysG :=
         Scene.reflectionRays vis hp (Scene.reflectionDir ray.direction hit.normal) acc.2
       let traced := raysG.1.foldl
         (fun tr r =>
           (tr.1.add (((recur r tr.2 opts.incrementDepth).1).smul
             (1 / (raysG.1.length : ℝ))), (recur r tr.2 opts.incrementDepth).2))
         (Color.zero, raysG.2)
       ((color2.add (traced.1.smul vis.reflectionStrength)).clamp, traced.2))) ∧
    (Scene.computeRayColorFuel (n + 1) s ray g opts =
      match s.findClosestHit ray opts with
      | none => (s.backgroundColor, g)
      | some hv =>
        s.lights.foldl
          (Scene.processLight (Scene.computeRayColorFuel n s) s ray opts hv.1 hv.2
            (ray.computePoint hv.1.t))
          (hv.2.color.smul s.ambientStrength, g)) := by
  constructor
  · simp only [Scene.processLight, if_pos (And.intro h0 hr)]
  · exact computeRayColorFuel_succ n s ray g opts

/-- C10 (witness): the per-light equation instantiated at a concrete
scene, ray, light and reflective material (second conjunct shown). -/
theorem c10_reflection_added_per_light_witness :
    Scene.computeRayColorFuel 1 emptyScene cexRay rng0 ⟨0, none⟩ =
      match emptyScene.findClosestHit cexRay ⟨0, none⟩ with
      | none => (emptyScene.backgroundColor, rng0)
      | some hv =>
        emptyScene.lights.foldl
          (Scene.processLight (Scene.computeRayColorFuel 0 emptyScene) emptyScene cexRay
            ⟨0, none⟩ hv.1 hv.2 (cexRay.computePoint hv.1.t))
          (hv.2.color.smul emptyScene.ambientStrength, rng0) :=
  (c10_reflection_added_per_light (fun _ g _ => (Color.zero, g)) 0 emptyScene cexRay rng0
    ⟨0, none⟩ ⟨1, ⟨0, 1, 0⟩⟩ cexVisRefl ⟨0, 0, 0⟩ (Color.zero, rng0) cexLight rfl
    (by norm_num [cexVisRefl])).2

/-! ## C9 — determinism when all jitter sources are disabled -/

theorem findClosestHit_vis {s : Scene} {ray : Ray} {opts : RayOptions}
    (P : VisualData → Prop) (hP : ∀ o ∈ s.objects, P o.getVisualData) :
    ∀ hv, s.findClosestHit ray opts = some hv → P hv.2 := by
  unfold Scene.findClosestHit
  suffices h : ∀ (l : List SceneObject) (acc : Option (Hit × VisualData)),
      (∀ hv, acc = some hv → P hv.2) → (∀ o ∈ l, P o.getVisualData) →
      ∀ hv, l.foldl
        (fun acc o =>
          match o.computeHit ray opts with
          | some anotherHit =>
            match acc with
            | some best =>
              if anotherHit.t < best.1.t then some (anotherHit, o.getVisualData) else acc
            | none => some (anotherHit, o.getVisualData)
          | none => acc) acc = some hv → P hv.2 by
    exact h s.objects none (by simp) hP
  intro l
  induction l with
  | nil => exact fun acc hacc _ hv heq => hacc hv heq
  | cons o os ih =>
    intro acc hacc hPl hv heq
    rw [List.foldl_cons] at heq
    refine ih _ ?_ (fun o2 ho2 => hPl o2 (List.mem_cons_of_mem _ ho2)) hv heq
    intro hv2 heq2
    rcases hh : o.computeHit ray opts with _ | ah
    · rw [hh] at heq2
      exact hacc hv2 heq2
    · rw [hh] at heq2
      rcases acc with _ | best
      · change some (ah, o.getVisualData) = some hv2 at heq2
        injection heq2 with heq2
        subst heq2
        exact hPl o (List.mem_cons_self o os)
      · change (if ah.t < best.1.t then some (ah, o.getVisualData) else some best)
          = some hv2 at heq2
        by_cases hlt : ah.t < best.1.t
        · rw [if_pos hlt] at heq2
          injection heq2 with heq2
          subst heq2
          exact hPl o (List.mem_cons_self o os)
        · rw [if_neg hlt] at heq2
          exact hacc hv2 heq2

theorem processLight_rng
    (recur : Ray → RngState → RayOptions → Color × RngState)
    (s : Scene) (ray : Ray) (opts : RayOptions) (hit : Hit) (vis : VisualData)
    (hp : Point) (light : Light)
    (hvg : vis.reflectionGlossiness = 0)
    (hrec : ∀ r o2 g g', recur r g o2 = ((recur r g' o2).1, g)) :
    ∀ (c0 : Color) (g g' : RngState),
      Scene.processLight recur s ray opts hit vis hp (c0, g) light =
        ((Scene.processLight recur s ray opts hit vis hp (c0, g') light).1, g) := by
  intro c0 g g'
  have hrr : ∀ gg, Scene.reflectionRays vis hp
      (Scene.reflectionDir ray.direction hit.normal) gg =
      ([⟨hp.addVec ((Scene.reflectionDir ray.direction hit.normal).smul 0.0001),
        Scene.reflectionDir ray.direction hit.normal⟩], gg) := by
    intro gg
    unfold Scene.reflectionRays
    rw [if_neg (by rw [hvg]; exact lt_irrefl 0)]
  simp only [Scene.processLight]
  by_cases hdr : opts.depth = 0 ∧ vis.reflectionStrength > 0
  · simp only [if_pos hdr]
    rw [hrr g, hrr g']
    simp only [List.foldl_cons, List.foldl_nil]
    rw [hrec _ _ g g']
  · simp only [if_neg hdr]

theorem computeRayColorFuel_rng (s : Scene)
    (hg : ∀ o ∈ s.objects, o.getVisualData.reflectionGlossiness = 0) :
    ∀ (fuel : ℕ) (ray : Ray) (opts : RayOptions) (g g' : RngState),
      Scene.computeRayColorFuel fuel s ray g opts =
        ((Scene.computeRayColorFuel fuel s ray g' opts).1, g) := by
  intro fuel
  induction fuel with
  | zero => exact fun ray opts g g' => rfl
  | succ n ih =>
    intro ray opts g g'
    rw [computeRayColorFuel_succ, computeRayColorFuel_succ]
    cases hfc : s.findClosestHit ray opts with
    | none => rfl
    | some hv =>
      dsimp only
      have hvg : hv.2.reflectionGlossiness = 0 :=
        findClosestHit_vis (fun v => v.reflectionGlossiness = 0) hg hv hfc
      have hfold : ∀ (L : List Light) (c0 : Color) (g g' : RngState),
          L.foldl (Scene.processLight (Scene.computeRayColorFuel n s) s ray opts hv.1 hv.2
            (ray.computePoint hv.1.t)) (c0, g) =
          ((L.foldl (Scene.processLight (Scene.computeRayColorFuel n s) s ray opts hv.1 hv.2
            (ray.computePoint hv.1.t)) (c0, g')).1, g) := by
        intro L
        induction L with
        | nil => exact fun c0 g g' => rfl
        | cons l ls ihL =>
          intro c0 g g'
          simp only [List.foldl_cons]
          have hstepA := processLight_rng _ s ray opts hv.1 hv.2
            (ray.computePoint hv.1.t) l hvg (fun r o2 a b => ih r o2 a b) c0 g' g'
          rw [hstepA]
          have hstepB := processLight_rng _ s ray opts hv.1 hv.2
            (ray.computePoint hv.1.t) l hvg (fun r o2 a b => ih r o2 a b) c0 g g'
          rw [hstepB]
          exact ihL _ g g'
      exact hfold s.lights _ g g'

/-- C9: with supersampling and soft shadows disabled and every scene
material's reflection glossiness equal to 0, `compute_pixel` is a
function of the scene, pixel and options alone — two runs with
different thread-local generator states return identical colors. -/
theorem c9_deterministic_without_jitter (s : Scene) (i j : ℕ)
    (renderOptions : RenderOptions) (g g' : RngState)
    (hss : renderOptions.useSupersampling = false)
    (hsoft : renderOptions.useSoftShadows = false)
    (hg : ∀ o ∈ s.objects, o.getVisualData.reflectionGlossiness = 0) :
    s.computePixel i j renderOptions g = s.computePixel i j renderOptions g' := by
  unfold Scene.computePixel Scene.computeRayColor
  rw [hss, hsoft]
  simp only [Bool.false_eq_true, if_false, List.enum_cons, List.enum_nil,
    List.enumFrom_nil, List.map_nil, List.foldl_cons, List.foldl_nil]
  rw [computeRayColorFuel_rng s hg 2 _ _ g g']

/-! ## C1 — the shadow test gates only the diffuse term -/

theorem cexScene_isInShadow (opts : RayOptions) :
    cexScene.isInShadow opts ⟨⟨0, 0.0001, 0⟩, ⟨0, 1, 0⟩⟩ 3 := by
  refine ⟨SceneObject.plane cexBlocker, by simp [cexScene], ⟨2 - 0.0001, ⟨0, 1, 0⟩⟩, ?_,
    by norm_num⟩
  norm_num [SceneObject.computeHit, Plane.computeHit, computePlaneHit, cexBlocker,
    Vec3.dot, Point.sub, minRayT]

theorem cexScene_processLight_eval :
    Scene.processLight (Scene.computeRayColorFuel 1 cexScene) cexScene cexRay ⟨0, none⟩
      ⟨1, ⟨0, 1, 0⟩⟩ cexVis ⟨0, 0, 0⟩ (⟨0, 0, 0⟩, rng0) cexLight
      = (⟨1 / 2, 1 / 2, 1 / 2⟩, rng0) := by
  have hloc : Scene.lightLocation ⟨0, none⟩ cexLight = (⟨0, 3, 0⟩ : Point) := rfl
  have hsub3 : Point.sub ⟨0, 3, 0⟩ ⟨0, 0, 0⟩ = (⟨0, 3, 0⟩ : Vec3) := by
    norm_num [Point.sub]
  have hnorm3 : (⟨0, 3, 0⟩ : Vec3).norm = 3 := by
    simp only [Vec3.norm, Vec3.normSquared]
    rw [show ((0 : ℝ) ^ 2 + 3 ^ 2 + 0 ^ 2) = 9 by norm_num, sqrtNine]
  have hnzn : (⟨0, 3, 0⟩ : Vec3).normalize = (⟨0, 1, 0⟩ : Vec3) := by
    simp only [Vec3.normalize, hnorm3]
    norm_num
  have horig : Point.addVec ⟨0, 0, 0⟩ (Vec3.smul ⟨0, 1, 0⟩ 0.0001)
      = (⟨0, 0.0001, 0⟩ : Point) := by
    norm_num [Point.addVec, Vec3.smul]
  have hcam : cexScene.camera.origin = (⟨0, 1, 0⟩ : Point) := rfl
  have hsubcam : Point.sub ⟨0, 1, 0⟩ ⟨0, 0, 0⟩ = (⟨0, 1, 0⟩ : Vec3) := by
    norm_num [Point.sub]
  have hnz1 : (⟨0, 1, 0⟩ : Vec3).normalize = (⟨0, 1, 0⟩ : Vec3) := by
    simp only [Vec3.normalize, Vec3.norm, Vec3.normSquared]
    rw [show ((0 : ℝ) ^ 2 + 1 ^ 2 + 0 ^ 2) = 1 by norm_num, sqrtOne]
    norm_num
  have hadd11 : Vec3.add ⟨0, 1, 0⟩ ⟨0, 1, 0⟩ = (⟨0, 2, 0⟩ : Vec3) := by
    norm_num [Vec3.add]
  have hnz2 : (⟨0, 2, 0⟩ : Vec3).normalize = (⟨0, 1, 0⟩ : Vec3) := by
    simp only [Vec3.normalize, Vec3.norm, Vec3.normSquared]
    rw [show ((0 : ℝ) ^ 2 + 2 ^ 2 + 0 ^ 2) = 4 by norm_num, sqrtFour]
    norm_num
  simp only [Scene.processLight, hloc, hsub3, hnorm3, hnzn, horig, hcam, hsubcam, hnz1,
    hadd11, hnz2]
  rw [if_neg (not_not_intro (cexScene_isInShadow ⟨0, none⟩))]
  norm_num [Vec3.dot, Color.smul, Color.add, Color.addNoClamp, Color.clamp, cexVis,
    cexLight, max_def, min_def]

theorem cexScene_rayColor_eval :
    Scene.computeRayColor cexScene cexRay rng0 ⟨0, none⟩ = (⟨1 / 2, 1 / 2, 1 / 2⟩, rng0) := by
  have hfind : Scene.findClosestHit cexScene cexRay ⟨0, none⟩
      = some (⟨1, ⟨0, 1, 0⟩⟩, cexVis) := by
    norm_num [Scene.findClosestHit, cexScene, SceneObject.computeHit,
      SceneObject.getVisualData, Plane.computeHit, computePlaneHit, cexPlane, cexBlocker,
      cexRay, Vec3.dot, Point.sub, minRayT]
  have hcp : cexRay.computePoint 1 = (⟨0, 0, 0⟩ : Point) := by
    norm_num [Ray.computePoint, cexRay, Point.addVec, Vec3.smul]
  have hamb : cexVis.color.smul cexScene.ambientStrength = (⟨0, 0, 0⟩ : Color) := by
    norm_num [cexVis, cexScene, Color.smul, Color.clamp, max_def, min_def]
  have hlights : cexScene.lights = [cexLight] := rfl
  unfold Scene.computeRayColor
  rw [show (2 : ℕ) = 1 + 1 from rfl, computeRayColorFuel_succ, hfind]
  dsimp only
  rw [hlights, hcp, hamb]
  simp only [List.foldl_cons, List.foldl_nil]
  exact cexScene_processLight_eval

/-- C1 (counterexample): in the fixture scene the floor hit at the
origin is shadowed by the occluder plane (the occluder intersects the
shadow ray at `t = 1.9999`, smaller than the light distance 3), the
color accumulated before the light is `(0,0,0)` (zero ambient), and yet
`compute_ray_color` returns `(1/2, 1/2, 1/2)`: the specular contribution
of the shadowed light was added.  The claim — that both the diffuse and
the specular contributions are skipped and the accumulated color is
retained — is therefore false on the code. -/
theorem c1_shadowed_specular_still_added :
    cexScene.isInShadow ⟨0, none⟩ ⟨⟨0, 0.0001, 0⟩, ⟨0, 1, 0⟩⟩ 3 ∧
    cexVis.color.smul cexScene.ambientStrength = (⟨0, 0, 0⟩ : Color) ∧
    Scene.computeRayColor cexScene cexRay rng0 ⟨0, none⟩ = (⟨1 / 2, 1 / 2, 1 / 2⟩, rng0) ∧
    (⟨1 / 2, 1 / 2, 1 / 2⟩ : Color) ≠ Color.clamp ⟨0, 0, 0⟩ := by
  refine ⟨cexScene_isInShadow ⟨0, none⟩, ?_, cexScene_rayColor_eval, ?_⟩
  · norm_num [cexVis, cexScene, Color.smul, Color.clamp, max_def, min_def]
  · intro h
    have hr := congrArg Color.r h
    norm_num [Color.clamp, max_def, min_def] at hr

/-- C1 (amended): when a surface intersects the shadow ray closer than
the light, only the *diffuse* contribution of that light is skipped.
With positive specular strength the specular term is still added on top
of the retained accumulated color even though the point is shadowed;
only when the specular strength is not positive (and the reflection
branch does not apply) is the accumulated color retained (clamped). -/
theorem c1_shadow_skips_only_diffuse
    (recur : Ray → RngState → RayOptions → Color × RngState)
    (s : Scene) (ray : Ray) (opts : RayOptions) (hit : Hit) (vis : VisualData)
    (hp : Point) (acc : Color × RngState) (light : Light)
    (hsh : s.isInShadow opts
      ⟨hp.addVec ((((Scene.lightLocation opts light).sub hp).normalize).smul 0.0001),
       ((Scene.lightLocation opts light).sub hp).normalize⟩
      ((Scene.lightLocation opts light).sub hp).norm)
    (hnr : ¬(opts.depth = 0 ∧ vis.reflectionStrength > 0)) :
    (vis.specularStrength > 0 →
      Scene.processLight recur s ray opts hit vis hp acc light =
        (acc.1.add (light.color.smul (vis.specularStrength *
          (max (hit.normal.dot (((s.camera.origin.sub hp).normalize).add
            (((Scene.lightLocation opts light).sub hp).normalize)).normalize) 0)
            ^ (64 : ℕ))),
         acc.2)) ∧
    (¬ vis.specularStrength > 0 →
      Scene.processLight recur s ray opts hit vis hp acc light = (acc.1.clamp, acc.2)) := by
  constructor
  · intro hspec
    simp only [Scene.processLight, if_neg (not_not_intro hsh), if_pos hspec, if_neg hnr]
    rw [colorAdd_clamp]
  · intro hspec
    simp only [Scene.processLight, if_neg (not_not_intro hsh), if_neg hspec, if_neg hnr]

/-- C1 (witness): the amended statement applied to the fixture scene at
depth 1 (no reflection), with the shadow hypothesis discharged by the
occluder plane. -/
theorem c1_shadow_skips_only_diffuse_witness :
    Scene.processLight (fun _ g _ => (Color.zero, g)) cexScene cexRay ⟨1, none⟩
      ⟨1, ⟨0, 1, 0⟩⟩ cexVis ⟨0, 0, 0⟩ (Color.zero, rng0) cexLight =
      ((Color.zero, rng0).1.add (cexLight.color.smul (cexVis.specularStrength *
        (max ((⟨1, ⟨0, 1, 0⟩⟩ : Hit).normal.dot
          (((cexScene.camera.origin.sub ⟨0, 0, 0⟩).normalize).add
            (((Scene.lightLocation ⟨1, none⟩ cexLight).sub ⟨0, 0, 0⟩).normalize)).normalize)
          0) ^ (64 : ℕ))),
       (Color.zero, rng0).2) := by
  have hsh : cexScene.isInShadow ⟨1, none⟩
      ⟨(⟨0, 0, 0⟩ : Point).addVec ((((Scene.lightLocation ⟨1, none⟩ cexLight).sub
          ⟨0, 0, 0⟩).normalize).smul 0.0001),
       ((Scene.lightLocation ⟨1, none⟩ cexLight).sub ⟨0, 0, 0⟩).normalize⟩
      ((Scene.lightLocation ⟨1, none⟩ cexLight).sub ⟨0, 0, 0⟩).norm := by
    have hloc : Scene.lightLocation ⟨1, none⟩ cexLight = (⟨0, 3, 0⟩ : Point) := rfl
    have hsub3 : Point.sub ⟨0, 3, 0⟩ ⟨0, 0, 0⟩ = (⟨0, 3, 0⟩ : Vec3) := by
      norm_num [Point.sub]
    have hnorm3 : (⟨0, 3, 0⟩ : Vec3).norm = 3 := by
      simp only [Vec3.norm, Vec3.normSquared]
      rw [show ((0 : ℝ) ^ 2 + 3 ^ 2 + 0 ^ 2) = 9 by norm_num, sqrtNine]
    have hnzn : (⟨0, 3, 0⟩ : Vec3).normalize = (⟨0, 1, 0⟩ : Vec3) := by
      simp only [Vec3.normalize, hnorm3]
      norm_num
    have horig : Point.addVec ⟨0, 0, 0⟩ (Vec3.smul ⟨0, 1, 0⟩ 0.0001)
        = (⟨0, 0.0001, 0⟩ : Point) := by
      norm_num [Point.addVec, Vec3.smul]
    rw [hloc, hsub3, hnzn, hnorm3, horig]
    exact cexScene_isInShadow ⟨1, none⟩
  exact (c1_shadow_skips_only_diffuse _ cexScene cexRay ⟨1, none⟩ ⟨1, ⟨0, 1, 0⟩⟩ cexVis
    ⟨0, 0, 0⟩ (Color.zero, rng0) cexLight hsh (by norm_num)).1
    (by norm_num [cexVis])

/-- C9 (witness): the determinism theorem applied to a concrete scene
with two visibly different generator states. -/
theorem c9_deterministic_witness :
    cexScene.computePixel 0 0 ⟨false, false⟩ rng0 =
      cexScene.computePixel 0 0 ⟨false, false⟩ ⟨fun n => (n : ℝ) + 7, 3⟩ :=
  c9_deterministic_without_jitter cexScene 0 0 ⟨false, false⟩ rng0
    ⟨fun n => (n : ℝ) + 7, 3⟩ rfl rfl
    (by
      intro o ho
      simp only [cexScene, List.mem_cons, List.not_mem_nil, or_false] at ho
      rcases ho with rfl | rfl <;>
        simp [SceneObject.getVisualData, cexPlane, cexBlocker, cexVis, VisualData.zero,
          VisualData.fromColor])

/-! ## C2 — BVH versus slow mesh intersection -/

theorem combineMinT_none_left (b : Option ℝ) : combineMinT none b = b := by
  cases b <;> rfl

theorem combineMinT_none_right (a : Option ℝ) : combineMinT a none = a := by
  cases a <;> rfl

theorem combineMinT_comm (a b : Option ℝ) : combineMinT a b = combineMinT b a := by
  cases a <;> cases b <;> simp [combineMinT, min_comm]

theorem combineMinT_assoc (a b c : Option ℝ) :
    combineMinT (combineMinT a b) c = combineMinT a (combineMinT b c) := by
  cases a <;> cases b <;> cases c <;> simp [combineMinT, min_assoc]

theorem minHitT_foldl (ray : Ray) :
    ∀ (ts : List Triangle) (acc : Option ℝ),
      ts.foldl (fun acc tri => combineMinT acc (Option.map Hit.t (tri.computeHit ray))) acc
        = combineMinT acc (minHitT ts ray) := by
  intro ts
  induction ts with
  | nil => intro acc; simp [minHitT, combineMinT_none_right]
  | cons t rest ih =>
    intro acc
    rw [minHitT, List.foldl_cons, List.foldl_cons, ih, ih, combineMinT_none_left,
      combineMinT_assoc]

theorem minHitT_cons (ray : Ray) (t : Triangle) (rest : List Triangle) :
    minHitT (t :: rest) ray
      = combineMinT (Option.map Hit.t (t.computeHit ray)) (minHitT rest ray) := by
  rw [minHitT, List.foldl_cons, combineMinT_none_left, minHitT_foldl]

theorem minHitT_append (ray : Ray) (xs ys : List Triangle) :
    minHitT (xs ++ ys) ray = combineMinT (minHitT xs ray) (minHitT ys ray) := by
  rw [minHitT, List.foldl_append, minHitT_foldl]
  rfl

theorem minHitT_perm (ray : Ray) {xs ys : List Triangle} (p : xs.Perm ys) :
    minHitT xs ray = minHitT ys ray := by
  unfold minHitT
  refine p.foldl_eq' ?_ none
  intro x _ y _ z
  rw [combineMinT_assoc, combineMinT_assoc,
    combineMinT_comm (Option.map Hit.t (x.computeHit ray))]

theorem minHitT_eq_none (ray : Ray) (ts : List Triangle) :
    minHitT ts ray = none ↔ ∀ tri ∈ ts, tri.computeHit ray = none := by
  induction ts with
  | nil => simp [minHitT]
  | cons t rest ih =>
    rw [minHitT_cons]
    cases hh : t.computeHit ray with
    | none =>
      simp only [Option.map_none', combineMinT_none_left, ih]
      constructor
      · intro h tri htri
        rcases List.mem_cons.mp htri with rfl | hm
        · exact hh
        · exact h tri hm
      · intro h tri hm
        exact h tri (List.mem_cons_of_mem _ hm)
    | some v =>
      simp only [Option.map_some']
      constructor
      · intro h
        exfalso
        cases hr : minHitT rest ray <;> rw [hr] at h <;> simp [combineMinT] at h
      · intro h
        exact absurd (h t (List.mem_cons_self t rest)) (by simp [hh])

theorem slowFold_map_t (ray : Ray) :
    ∀ (ts : List Triangle) (acc : Option Hit),
      Option.map Hit.t (ts.foldl
        (fun closest tri =>
          match tri.computeHit ray with
          | some hit =>
            match closest with
            | some ch => if hit.t < ch.t then some hit else some ch
            | none => some hit
          | none => closest) acc)
        = combineMinT (Option.map Hit.t acc) (minHitT ts ray) := by
  have hstep : ∀ (acc : Option Hit) (tri : Triangle),
      Option.map Hit.t (match tri.computeHit ray with
        | some hit =>
          match acc with
          | some ch => if hit.t < ch.t then some hit else some ch
          | none => some hit
        | none => acc)
      = combineMinT (Option.map Hit.t acc) (Option.map Hit.t (tri.computeHit ray)) := by
    intro acc tri
    cases hh : tri.computeHit ray with
    | none => cases acc <;> simp [combineMinT]
    | some hit =>
      cases acc with
      | none => simp [combineMinT]
      | some ch =>
        by_cases hlt : hit.t < ch.t
        · simp [hlt, combineMinT, min_eq_right (le_of_lt hlt)]
        · simp [hlt, combineMinT, min_eq_left (not_lt.mp hlt)]
  intro ts
  induction ts with
  | nil => intro acc; simp [minHitT, combineMinT_none_right]
  | cons tri rest ih =>
    intro acc
    rw [List.foldl_cons, minHitT_cons, ih, hstep, combineMinT_assoc]

theorem slowHit_map_t (m : TriangleMesh) (ray : Ray) :
    Option.map Hit.t (m.computeSlowHit ray) = minHitT m.triangles ray := by
  unfold TriangleMesh.computeSlowHit
  rw [slowFold_map_t]
  rw [show Option.map Hit.t (none : Option Hit) = none from rfl, combineMinT_none_left]


theorem vec3_dot_comm (v w : Vec3) : v.dot w = w.dot v := by
  simp [Vec3.dot]; ring

theorem cross_decomp (a b w : Vec3) :
    Vec3.smul w ((a.cross b).normSquared)
      = (Vec3.smul (a.cross b) (w.dot (a.cross b))).add
        ((Vec3.smul a ((w.cross b).dot (a.cross b))).add
          (Vec3.smul b ((a.cross w).dot (a.cross b)))) := by
  ext <;> simp [Vec3.cross, Vec3.dot, Vec3.smul, Vec3.add, Vec3.normSquared] <;> ring

theorem triangle_hit_elim (tri : Triangle) (ray : Ray) (h : Hit)
    (hh : tri.computeHit ray = some h) :
    ¬ |tri.computeNormal.dot ray.direction| < 0.000001 ∧
    minRayT ≤ h.t ∧
    h.t = -(tri.computeNormal.dot ray.origin.toVec + -(tri.computeNormal.dot tri.v0.toVec))
      / (tri.computeNormal.dot ray.direction) ∧
    ¬ isOnTheRight (ray.computePoint h.t) tri.v0 tri.v1 tri.computeNormal ∧
    ¬ isOnTheRight (ray.computePoint h.t) tri.v1 tri.v2 tri.computeNormal ∧
    ¬ isOnTheRight (ray.computePoint h.t) tri.v2 tri.v0 tri.computeNormal := by
  unfold Triangle.computeHit at hh
  dsimp only at hh
  by_cases h1 : |tri.computeNormal.dot ray.direction| < 0.000001
  · rw [if_pos h1] at hh
    exact Option.noConfusion hh
  rw [if_neg h1] at hh
  set tval := -(tri.computeNormal.dot ray.origin.toVec + -(tri.computeNormal.dot tri.v0.toVec))
    / (tri.computeNormal.dot ray.direction) with htv
  by_cases h2 : tval < minRayT
  · rw [if_pos h2] at hh
    exact Option.noConfusion hh
  rw [if_neg h2] at hh
  by_cases h3 : isOnTheRight (ray.computePoint tval) tri.v0 tri.v1 tri.computeNormal ∨
      isOnTheRight (ray.computePoint tval) tri.v1 tri.v2 tri.computeNormal ∨
      isOnTheRight (ray.computePoint tval) tri.v2 tri.v0 tri.computeNormal
  · rw [if_pos h3] at hh
    exact Option.noConfusion hh
  rw [if_neg h3] at hh
  push_neg at h3
  injection hh with hh
  subst hh
  exact ⟨h1, not_lt.mp h2, rfl, h3.1, h3.2.1, h3.2.2⟩

theorem triangleHit_convex (tri : Triangle) (ray : Ray) (h : Hit)
    (hh : tri.computeHit ray = some h) :
    ∃ α β : ℝ, 0 ≤ α ∧ 0 ≤ β ∧ α + β ≤ 1 ∧
      (ray.computePoint h.t).x
        = tri.v0.x + α * (tri.v1.x - tri.v0.x) + β * (tri.v2.x - tri.v0.x) ∧
      (ray.computePoint h.t).y
        = tri.v0.y + α * (tri.v1.y - tri.v0.y) + β * (tri.v2.y - tri.v0.y) ∧
      (ray.computePoint h.t).z
        = tri.v0.z + α * (tri.v1.z - tri.v0.z) + β * (tri.v2.z - tri.v0.z) := by
  obtain ⟨hden, htmin, htval, he1, he2, he3⟩ := triangle_hit_elim tri ray h hh
  set a := tri.v1.sub tri.v0 with ha
  set b := tri.v2.sub tri.v0 with hb
  set c := a.cross b with hc
  set n := tri.computeNormal with hn
  set p := ray.computePoint h.t with hp
  set w := p.sub tri.v0 with hw0
  set N := c.normSquared with hN
  have hnc : n = Vec3.smul c (1 / c.norm) := by
    rw [hn]
    unfold Triangle.computeNormal
    rw [← ha, ← hb, ← hc]
    ext <;> simp [Vec3.normalize, Vec3.smul] <;> ring
  have hdenne : n.dot ray.direction ≠ 0 := by
    intro h0
    rw [h0] at hden
    norm_num at hden
  have hcne : N ≠ 0 := by
    intro h0
    have hx : c.x = 0 ∧ c.y = 0 ∧ c.z = 0 := by
      have h0' : c.x ^ 2 + c.y ^ 2 + c.z ^ 2 = 0 := h0
      refine ⟨?_, ?_, ?_⟩ <;> nlinarith [sq_nonneg c.x, sq_nonneg c.y, sq_nonneg c.z]
    apply hdenne
    rw [hnc]
    simp [Vec3.smul, Vec3.dot, hx.1, hx.2.1, hx.2.2]
  have hNpos : 0 < N := by
    rcases lt_or_eq_of_le (by positivity : (0:ℝ) ≤ c.x ^ 2 + c.y ^ 2 + c.z ^ 2) with hlt | heq
    · exact hlt
    · exact absurd heq.symm hcne
  have hnormpos : 0 < c.norm := Real.sqrt_pos.mpr hNpos
  have hexp : n.dot w = n.dot ray.origin.toVec - n.dot tri.v0.toVec
      + h.t * (n.dot ray.direction) := by
    rw [hw0, hp]
    simp [Ray.computePoint, Point.sub, Point.addVec, Vec3.smul, Vec3.dot, Point.toVec]
    ring
  have hnw : n.dot w = 0 := by
    rw [hexp, htval]
    field_simp
    ring
  have hcw : c.dot w = 0 := by
    have hscal : n.dot w = (1 / c.norm) * (c.dot w) := by
      rw [hnc]
      simp [Vec3.smul, Vec3.dot]
      ring
    rw [hscal] at hnw
    rcases mul_eq_zero.mp hnw with hi | hcw
    · exact absurd hi (by positivity)
    · exact hcw
  obtain ⟨A, hA⟩ : ∃ x : ℝ, x = ((w.cross b).dot c) / N := ⟨_, rfl⟩
  obtain ⟨B, hB⟩ : ∃ x : ℝ, x = ((a.cross w).dot c) / N := ⟨_, rfl⟩
  have hAN : A * N = (w.cross b).dot c := by
    rw [hA]
    field_simp
  have hBN : B * N = (a.cross w).dot c := by
    rw [hB]
    field_simp
  have hid := cross_decomp a b w
  rw [← hc, ← hN] at hid
  have hwc : w.dot c = 0 := by rw [vec3_dot_comm]; exact hcw
  have hwv : w = (a.smul A).add (b.smul B) := by
    have hxc := congrArg Vec3.x hid
    have hyc := congrArg Vec3.y hid
    have hzc := congrArg Vec3.z hid
    simp only [Vec3.smul, Vec3.add, hwc, mul_zero, zero_add] at hxc hyc hzc
    rw [hA, hB]
    ext <;> simp only [Vec3.smul, Vec3.add] <;> field_simp <;> linarith
  have hedge : ∀ q1 q2 : Point, ¬ isOnTheRight p q1 q2 n →
      0 ≤ c.dot ((q2.sub q1).cross (p.sub q1)) := by
    intro q1 q2 hq
    unfold isOnTheRight at hq
    push_neg at hq
    have hscal : n.dot ((q2.sub q1).cross (p.sub q1))
        = (1 / c.norm) * (c.dot ((q2.sub q1).cross (p.sub q1))) := by
      rw [hnc]
      simp [Vec3.smul, Vec3.dot]
      ring
    rw [hscal] at hq
    nlinarith [one_div_pos.mpr hnormpos]
  have hBge : 0 ≤ B := by
    have h0 := hedge tri.v0 tri.v1 he1
    rw [← ha, ← hw0] at h0
    have hval : c.dot (a.cross w) = B * N := by
      rw [hBN, vec3_dot_comm]
    rw [hval] at h0
    exact (mul_nonneg_iff_of_pos_right hNpos).mp h0
  have hAge : 0 ≤ A := by
    have h0 := hedge tri.v2 tri.v0 he3
    have hv02 : Point.sub tri.v0 tri.v2 = Vec3.neg b := by
      rw [hb]
      ext <;> simp [Point.sub, Vec3.neg] <;> ring
    have hpv2 : Point.sub p tri.v2 = Vec3.sub w b := by
      rw [hw0, hb]
      ext <;> simp [Point.sub, Vec3.sub] <;> ring
    rw [hv02, hpv2] at h0
    have hval : c.dot ((Vec3.neg b).cross (Vec3.sub w b)) = A * N := by
      rw [hAN]
      simp only [Vec3.cross, Vec3.dot, Vec3.smul, Vec3.sub, Vec3.neg]
      ring
    rw [hval] at h0
    exact (mul_nonneg_iff_of_pos_right hNpos).mp h0
  have hABle : A + B ≤ 1 := by
    have h0 := hedge tri.v1 tri.v2 he2
    have hv21 : Point.sub tri.v2 tri.v1 = Vec3.sub b a := by
      rw [ha, hb]
      ext <;> simp [Point.sub, Vec3.sub] <;> ring
    have hpv1 : Point.sub p tri.v1 = Vec3.sub w a := by
      rw [hw0, ha]
      ext <;> simp [Point.sub, Vec3.sub] <;> ring
    rw [hv21, hpv1] at h0
    have hval : c.dot ((Vec3.sub b a).cross (Vec3.sub w a))
        = (1 - A - B) * N := by
      have hexpand : c.dot ((Vec3.sub b a).cross (Vec3.sub w a))
          = N - (w.cross b).dot c - (a.cross w).dot c := by
        rw [hN, hc]
        simp only [Vec3.cross, Vec3.dot, Vec3.smul, Vec3.sub, Vec3.normSquared]
        ring
      rw [hexpand, ← hAN, ← hBN]
      ring
    rw [hval] at h0
    have h1 := (mul_nonneg_iff_of_pos_right hNpos).mp h0
    linarith
  refine ⟨A, B, hAge, hBge, hABle, ?_, ?_, ?_⟩ <;>
  · have hx := congrArg Vec3.x hwv
    have hy := congrArg Vec3.y hwv
    have hz := congrArg Vec3.z hwv
    simp only [Vec3.smul, Vec3.add, hw0, ha, hb, Point.sub] at hx hy hz
    first
    | linarith [hx]
    | linarith [hy]
    | linarith [hz]

theorem convex_bound (a0 a1 a2 al be : ℝ) (hal : 0 ≤ al) (hbe : 0 ≤ be)
    (hs : al + be ≤ 1) :
    min (min a0 a1) a2 ≤ a0 + al * (a1 - a0) + be * (a2 - a0) ∧
    a0 + al * (a1 - a0) + be * (a2 - a0) ≤ max (max a0 a1) a2 := by
  have hm0 : min (min a0 a1) a2 ≤ a0 := le_trans (min_le_left _ _) (min_le_left _ _)
  have hm1 : min (min a0 a1) a2 ≤ a1 := le_trans (min_le_left _ _) (min_le_right _ _)
  have hm2 : min (min a0 a1) a2 ≤ a2 := min_le_right _ _
  have hM0 : a0 ≤ max (max a0 a1) a2 := le_trans (le_max_left _ _) (le_max_left _ _)
  have hM1 : a1 ≤ max (max a0 a1) a2 := le_trans (le_max_right _ _) (le_max_left _ _)
  have hM2 : a2 ≤ max (max a0 a1) a2 := le_max_right _ _
  constructor
  · nlinarith [mul_nonneg hal (sub_nonneg.mpr hm1), mul_nonneg hbe (sub_nonneg.mpr hm2),
      mul_nonneg (by linarith : (0:ℝ) ≤ 1 - al - be) (sub_nonneg.mpr hm0)]
  · nlinarith [mul_nonneg hal (sub_nonneg.mpr hM1), mul_nonneg hbe (sub_nonneg.mpr hM2),
      mul_nonneg (by linarith : (0:ℝ) ≤ 1 - al - be) (sub_nonneg.mpr hM0)]

theorem triangle_hit_point_bounds (tri : Triangle) (ray : Ray) (h : Hit)
    (hh : tri.computeHit ray = some h) (i : ℕ) :
    tri.minDim i ≤ (ray.computePoint h.t).coord i ∧
      (ray.computePoint h.t).coord i ≤ tri.maxDim i := by
  obtain ⟨al, be, hal, hbe, hs, hx, hy, hz⟩ := triangleHit_convex tri ray h hh
  rcases i with _ | _ | _ | j
  · simp only [Triangle.minDim, Triangle.maxDim, Point.coord, if_pos rfl]
    rw [hx]
    exact convex_bound _ _ _ _ _ hal hbe hs
  · norm_num only [Triangle.minDim, Triangle.maxDim, Point.coord]
    rw [hy]
    exact convex_bound _ _ _ _ _ hal hbe hs
  · norm_num only [Triangle.minDim, Triangle.maxDim, Point.coord]
    rw [hz]
    exact convex_bound _ _ _ _ _ hal hbe hs
  · have h0 : j + 1 + 1 + 1 ≠ 0 := by omega
    have h1 : j + 1 + 1 + 1 ≠ 1 := by omega
    have h2 : j + 1 + 1 + 1 ≠ 2 := by omega
    simp only [Triangle.minDim, Triangle.maxDim, Point.coord, if_neg h0, if_neg h1, if_neg h2]
    norm_num

theorem foldl_min_le (g : Triangle → ℝ) :
    ∀ (l : List Triangle) (a : ℝ),
      (l.foldl (fun acc tr => min acc (g tr)) a ≤ a) ∧
      (∀ tr ∈ l, l.foldl (fun acc tr => min acc (g tr)) a ≤ g tr) := by
  intro l
  induction l with
  | nil =>
    intro a
    exact ⟨le_refl a, fun tr htr => absurd htr (List.not_mem_nil tr)⟩
  | cons hd tl ih =>
    intro a
    rw [List.foldl_cons]
    refine ⟨le_trans (ih (min a (g hd))).1 (min_le_left _ _), ?_⟩
    intro tr htr
    rcases List.mem_cons.mp htr with rfl | hm
    · exact le_trans (ih _).1 (min_le_right _ _)
    · exact (ih _).2 tr hm

theorem foldl_le_max (g : Triangle → ℝ) :
    ∀ (l : List Triangle) (a : ℝ),
      (a ≤ l.foldl (fun acc tr => max acc (g tr)) a) ∧
      (∀ tr ∈ l, g tr ≤ l.foldl (fun acc tr => max acc (g tr)) a) := by
  intro l
  induction l with
  | nil =>
    intro a
    exact ⟨le_refl a, fun tr htr => absurd htr (List.not_mem_nil tr)⟩
  | cons hd tl ih =>
    intro a
    rw [List.foldl_cons]
    refine ⟨le_trans (le_max_left _ _) (ih (max a (g hd))).1, ?_⟩
    intro tr htr
    rcases List.mem_cons.mp htr with rfl | hm
    · exact le_trans (le_max_right _ _) (ih _).1
    · exact (ih _).2 tr hm

theorem foldl_min_mem (g : Triangle → ℝ) (t : Triangle) (rest : List Triangle)
    (tri : Triangle) (htri : tri ∈ t :: rest) :
    rest.foldl (fun a tr => min a (g tr)) (g t) ≤ g tri := by
  rcases List.mem_cons.mp htri with rfl | hm
  · exact (foldl_min_le g rest (g tri)).1
  · exact (foldl_min_le g rest (g t)).2 tri hm

theorem foldl_max_mem (g : Triangle → ℝ) (t : Triangle) (rest : List Triangle)
    (tri : Triangle) (htri : tri ∈ t :: rest) :
    g tri ≤ rest.foldl (fun a tr => max a (g tr)) (g t) := by
  rcases List.mem_cons.mp htri with rfl | hm
  · exact (foldl_le_max g rest (g tri)).1
  · exact (foldl_le_max g rest (g t)).2 tri hm

theorem foldPoint_proj (fP : Point → Triangle → Point) (fR : ℝ → Triangle → ℝ)
    (proj : Point → ℝ)
    (hcomm : ∀ acc tr, proj (fP acc tr) = fR (proj acc) tr) :
    ∀ (l : List Triangle) (init : Point),
      proj (l.foldl fP init) = l.foldl fR (proj init) := by
  intro l
  induction l with
  | nil => intro init; rfl
  | cons hd tl ih =>
    intro init
    rw [List.foldl_cons, List.foldl_cons, ih, hcomm]

theorem ite_gt_snd_min (a b : ℝ) : (if a > b then b else a) = min a b := by
  rcases le_or_lt a b with h | h
  · rw [if_neg (not_lt.mpr h), min_eq_left h]
  · rw [if_pos h, min_eq_right h.le]

theorem ite_gt_fst_max (a b : ℝ) : (if a > b then a else b) = max a b := by
  rcases le_or_lt a b with h | h
  · rw [if_neg (not_lt.mpr h), max_eq_right h]
  · rw [if_pos h, max_eq_left h.le]

theorem ite_lt_min_hit (a b : Hit) :
    Option.map Hit.t (some (if a.t < b.t then a else b)) = some (min a.t b.t) := by
  by_cases h : a.t < b.t
  · rw [if_pos h, Option.map_some', min_eq_left h.le]
  · rw [if_neg h, Option.map_some', min_eq_right (not_lt.mp h)]

theorem slab_bounds (L H o dd t : ℝ) (hdd : dd ≠ 0)
    (hlo : L < o + t * dd) (hhi : o + t * dd ≤ H) :
    min ((L - o) / dd) ((H - o) / dd) ≤ t ∧ t ≤ max ((L - o) / dd) ((H - o) / dd) := by
  rcases lt_or_gt_of_ne hdd with hneg | hpos
  · constructor
    · refine le_trans (min_le_right _ _) ?_
      rw [div_le_iff_of_neg hneg]
      linarith
    · refine le_trans ?_ (le_max_left _ _)
      rw [le_div_iff_of_neg hneg]
      linarith
  · constructor
    · refine le_trans (min_le_left _ _) ?_
      rw [div_le_iff hpos]
      linarith
    · refine le_trans ?_ (le_max_right _ _)
      rw [le_div_iff hpos]
      linarith

theorem final_slab_some (tmin2 tmax2 : ℝ) (hle : minRayT ≤ tmax2) :
    (if tmin2 < minRayT then
        (if tmax2 < minRayT then (none : Option Hit)
         else some ⟨tmax2, ⟨0, 1, 0⟩⟩)
      else some ⟨tmin2, ⟨0, 1, 0⟩⟩).isSome = true := by
  by_cases h : tmin2 < minRayT
  · rw [if_pos h, if_neg (not_lt.mpr hle)]
    rfl
  · rw [if_neg h]
    rfl

theorem aabb_hit_isSome (box : AxisAlignedBox) (ray : Ray) (t : ℝ)
    (hmin : minRayT ≤ t)
    (hx1 : min ((box.minCorner.x - ray.origin.x) / (ray.direction.x + aabbEpsilon))
            ((box.maxCorner.x - ray.origin.x) / (ray.direction.x + aabbEpsilon)) ≤ t)
    (hx2 : t ≤ max ((box.minCorner.x - ray.origin.x) / (ray.direction.x + aabbEpsilon))
            ((box.maxCorner.x - ray.origin.x) / (ray.direction.x + aabbEpsilon)))
    (hy1 : min ((box.minCorner.y - ray.origin.y) / (ray.direction.y + aabbEpsilon))
            ((box.maxCorner.y - ray.origin.y) / (ray.direction.y + aabbEpsilon)) ≤ t)
    (hy2 : t ≤ max ((box.minCorner.y - ray.origin.y) / (ray.direction.y + aabbEpsilon))
            ((box.maxCorner.y - ray.origin.y) / (ray.direction.y + aabbEpsilon)))
    (hz1 : min ((box.minCorner.z - ray.origin.z) / (ray.direction.z + aabbEpsilon))
            ((box.maxCorner.z - ray.origin.z) / (ray.direction.z + aabbEpsilon)) ≤ t)
    (hz2 : t ≤ max ((box.minCorner.z - ray.origin.z) / (ray.direction.z + aabbEpsilon))
            ((box.maxCorner.z - ray.origin.z) / (ray.direction.z + aabbEpsilon))) :
    (box.computeHit ray).isSome = true := by
  unfold AxisAlignedBox.computeHit
  dsimp only
  simp only [ite_gt_snd_min, ite_gt_fst_max]
  rw [if_neg ?hc1]
  case hc1 =>
    push_neg
    exact ⟨le_trans hx1 hy2, le_trans hy1 hx2⟩
  rw [if_neg ?hc2]
  case hc2 =>
    push_neg
    exact ⟨le_trans (max_le hy1 hx1) hz2, le_trans hz1 (le_min hx2 hy2)⟩
  exact final_slab_some _ _ (le_trans hmin (le_min (le_min hx2 hy2) hz2))

theorem box_passes (ts : List Triangle) (tri : Triangle) (htri : tri ∈ ts)
    (ray : Ray) (h : Hit) (hh : tri.computeHit ray = some h)
    (hle : h.t ≤ 100000)
    (hdx : ray.direction.x + aabbEpsilon ≠ 0)
    (hdy : ray.direction.y + aabbEpsilon ≠ 0)
    (hdz : ray.direction.z + aabbEpsilon ≠ 0) :
    ((BoundingVolumeHierarchy.computeBboxFromTriangles ts).computeHit ray).isSome = true := by
  obtain ⟨_, htmin, _⟩ := triangle_hit_elim tri ray h hh
  have htpos : (0:ℝ) ≤ h.t := le_trans (by norm_num [minRayT]) htmin
  have hepsnn : h.t * aabbEpsilon ≤ 0.00001 := by
    have h1 : h.t * aabbEpsilon ≤ 100000 * aabbEpsilon :=
      mul_le_mul_of_nonneg_right hle (by norm_num [aabbEpsilon])
    calc h.t * aabbEpsilon ≤ 100000 * aabbEpsilon := h1
    _ ≤ 0.00001 := by norm_num [aabbEpsilon]
  have hepspos : (0:ℝ) ≤ h.t * aabbEpsilon :=
    mul_nonneg htpos (by norm_num [aabbEpsilon])
  cases ts with
  | nil => exact absurd htri (List.not_mem_nil tri)
  | cons t rest =>
    obtain ⟨hb0l, hb0r⟩ := triangle_hit_point_bounds tri ray h hh 0
    obtain ⟨hb1l, hb1r⟩ := triangle_hit_point_bounds tri ray h hh 1
    obtain ⟨hb2l, hb2r⟩ := triangle_hit_point_bounds tri ray h hh 2
    rw [show (ray.computePoint h.t).coord 0 = ray.origin.x + ray.direction.x * h.t
      from rfl] at hb0l hb0r
    rw [show (ray.computePoint h.t).coord 1 = ray.origin.y + ray.direction.y * h.t
      from rfl] at hb1l hb1r
    rw [show (ray.computePoint h.t).coord 2 = ray.origin.z + ray.direction.z * h.t
      from rfl] at hb2l hb2r
    have hminx : (BoundingVolumeHierarchy.computeBboxFromTriangles (t :: rest)).minCorner.x
        = rest.foldl (fun a tr => min a (tr.minDim 0)) (t.minDim 0) + (-0.00001) := by
      simp only [BoundingVolumeHierarchy.computeBboxFromTriangles, Point.addScalar]
      rw [foldPoint_proj _ (fun a tr => min a (tr.minDim 0)) Point.x
        (fun acc tr => rfl) rest]
    have hminy : (BoundingVolumeHierarchy.computeBboxFromTriangles (t :: rest)).minCorner.y
        = rest.foldl (fun a tr => min a (tr.minDim 1)) (t.minDim 1) + (-0.00001) := by
      simp only [BoundingVolumeHierarchy.computeBboxFromTriangles, Point.addScalar]
      rw [foldPoint_proj _ (fun a tr => min a (tr.minDim 1)) Point.y
        (fun acc tr => rfl) rest]
    have hminz : (BoundingVolumeHierarchy.computeBboxFromTriangles (t :: rest)).minCorner.z
        = rest.foldl (fun a tr => min a (tr.minDim 2)) (t.minDim 2) + (-0.00001) := by
      simp only [BoundingVolumeHierarchy.computeBboxFromTriangles, Point.addScalar]
      rw [foldPoint_proj _ (fun a tr => min a (tr.minDim 2)) Point.z
        (fun acc tr => rfl) rest]
    have hmaxx : (BoundingVolumeHierarchy.computeBboxFromTriangles (t :: rest)).maxCorner.x
        = rest.foldl (fun a tr => max a (tr.maxDim 0)) (t.maxDim 0) + 0.00001 := by
      simp only [BoundingVolumeHierarchy.computeBboxFromTriangles, Point.addScalar]
      rw [foldPoint_proj _ (fun a tr => max a (tr.maxDim 0)) Point.x
        (fun acc tr => rfl) rest]
    have hmaxy : (BoundingVolumeHierarchy.computeBboxFromTriangles (t :: rest)).maxCorner.y
        = rest.foldl (fun a tr => max a (tr.maxDim 1)) (t.maxDim 1) + 0.00001 := by
      simp only [BoundingVolumeHierarchy.computeBboxFromTriangles, Point.addScalar]
      rw [foldPoint_proj _ (fun a tr => max a (tr.maxDim 1)) Point.y
        (fun acc tr => rfl) rest]
    have hmaxz : (BoundingVolumeHierarchy.computeBboxFromTriangles (t :: rest)).maxCorner.z
        = rest.foldl (fun a tr => max a (tr.maxDim 2)) (t.maxDim 2) + 0.00001 := by
      simp only [BoundingVolumeHierarchy.computeBboxFromTriangles, Point.addScalar]
      rw [foldPoint_proj _ (fun a tr => max a (tr.maxDim 2)) Point.z
        (fun acc tr => rfl) rest]
    have hfx : rest.foldl (fun a tr => min a (tr.minDim 0)) (t.minDim 0) ≤ tri.minDim 0 :=
      foldl_min_mem (fun tr => tr.minDim 0) t rest tri htri
    have hfy : rest.foldl (fun a tr => min a (tr.minDim 1)) (t.minDim 1) ≤ tri.minDim 1 :=
      foldl_min_mem (fun tr => tr.minDim 1) t rest tri htri
    have hfz : rest.foldl (fun a tr => min a (tr.minDim 2)) (t.minDim 2) ≤ tri.minDim 2 :=
      foldl_min_mem (fun tr => tr.minDim 2) t rest tri htri
    have hgx : tri.maxDim 0 ≤ rest.foldl (fun a tr => max a (tr.maxDim 0)) (t.maxDim 0) :=
      foldl_max_mem (fun tr => tr.maxDim 0) t rest tri htri
    have hgy : tri.maxDim 1 ≤ rest.foldl (fun a tr => max a (tr.maxDim 1)) (t.maxDim 1) :=
      foldl_max_mem (fun tr => tr.maxDim 1) t rest tri htri
    have hgz : tri.maxDim 2 ≤ rest.foldl (fun a tr => max a (tr.maxDim 2)) (t.maxDim 2) :=
      foldl_max_mem (fun tr => tr.maxDim 2) t rest tri htri
    have hdistx : ray.origin.x + h.t * (ray.direction.x + aabbEpsilon)
        = (ray.origin.x + ray.direction.x * h.t) + h.t * aabbEpsilon := by ring
    have hdisty : ray.origin.y + h.t * (ray.direction.y + aabbEpsilon)
        = (ray.origin.y + ray.direction.y * h.t) + h.t * aabbEpsilon := by ring
    have hdistz : ray.origin.z + h.t * (ray.direction.z + aabbEpsilon)
        = (ray.origin.z + ray.direction.z * h.t) + h.t * aabbEpsilon := by ring
    have hlox : (BoundingVolumeHierarchy.computeBboxFromTriangles (t :: rest)).minCorner.x
        < ray.origin.x + h.t * (ray.direction.x + aabbEpsilon) := by
      rw [hminx, hdistx]
      linarith
    have hhix : ray.origin.x + h.t * (ray.direction.x + aabbEpsilon)
        ≤ (BoundingVolumeHierarchy.computeBboxFromTriangles (t :: rest)).maxCorner.x := by
      rw [hmaxx, hdistx]
      linarith
    have hloy : (BoundingVolumeHierarchy.computeBboxFromTriangles (t :: rest)).minCorner.y
        < ray.origin.y + h.t * (ray.direction.y + aabbEpsilon) := by
      rw [hminy, hdisty]
      linarith
    have hhiy : ray.origin.y + h.t * (ray.direction.y + aabbEpsilon)
        ≤ (BoundingVolumeHierarchy.computeBboxFromTriangles (t :: rest)).maxCorner.y := by
      rw [hmaxy, hdisty]
      linarith
    have hloz : (BoundingVolumeHierarchy.computeBboxFromTriangles (t :: rest)).minCorner.z
        < ray.origin.z + h.t * (ray.direction.z + aabbEpsilon) := by
      rw [hminz, hdistz]
      linarith
    have hhiz : ray.origin.z + h.t * (ray.direction.z + aabbEpsilon)
        ≤ (BoundingVolumeHierarchy.computeBboxFromTriangles (t :: rest)).maxCorner.z := by
      rw [hmaxz, hdistz]
      linarith
    have hsx := slab_bounds _ _ _ _ _ hdx hlox hhix
    have hsy := slab_bounds _ _ _ _ _ hdy hloy hhiy
    have hsz := slab_bounds _ _ _ _ _ hdz hloz hhiz
    exact aabb_hit_isSome _ ray h.t htmin hsx.1 hsx.2 hsy.1 hsy.2 hsz.1 hsz.2

theorem allMiss_of_box_none (ts : List Triangle) (ray : Ray)
    (hdx : ray.direction.x + aabbEpsilon ≠ 0)
    (hdy : ray.direction.y + aabbEpsilon ≠ 0)
    (hdz : ray.direction.z + aabbEpsilon ≠ 0)
    (hbound : ∀ tri ∈ ts, ∀ h : Hit, tri.computeHit ray = some h → h.t ≤ 100000)
    (hbox : (BoundingVolumeHierarchy.computeBboxFromTriangles ts).computeHit ray = none) :
    minHitT ts ray = none := by
  refine (minHitT_eq_none ray ts).mpr ?_
  intro tri htri
  cases hth : tri.computeHit ray with
  | none => rfl
  | some h =>
    have hs := box_passes ts tri htri ray h hth (hbound tri htri h hth) hdx hdy hdz
    rw [hbox] at hs
    simp at hs

theorem combineHits_map_t (lo ro : Option Hit) :
    Option.map Hit.t (match lo with
      | some lh =>
        match ro with
        | some rh => some (if lh.t < rh.t then lh else rh)
        | none => some lh
      | none => ro)
      = combineMinT (Option.map Hit.t lo) (Option.map Hit.t ro) := by
  cases lo with
  | none => cases ro <;> rfl
  | some lh =>
    cases ro with
    | none => rfl
    | some rh =>
      show Option.map Hit.t (some (if lh.t < rh.t then lh else rh))
        = combineMinT (some lh.t) (some rh.t)
      rw [ite_lt_min_hit]
      rfl

theorem bvh_fromTriangles_map_t (ray : Ray)
    (hdx : ray.direction.x + aabbEpsilon ≠ 0)
    (hdy : ray.direction.y + aabbEpsilon ≠ 0)
    (hdz : ray.direction.z + aabbEpsilon ≠ 0) :
    ∀ (n : ℕ) (ts : List Triangle) (lvl : ℕ), ts.length ≤ n → ts ≠ [] →
      lvl + Nat.clog 2 ts.length ≤ 114 →
      (∀ tri ∈ ts, ∀ h : Hit, tri.computeHit ray = some h → h.t ≤ 100000) →
      Option.map Hit.t
        ((BoundingVolumeHierarchy.fromTrianglesList ts lvl).computeHit ray)
        = minHitT ts ray := by
  intro n
  induction n with
  | zero =>
    intro ts lvl hlen hne _ _
    exact absurd (List.length_eq_zero.mp (Nat.le_zero.mp hlen)) hne
  | succ n ih =>
    intro ts lvl hlen hne hlvl hbound
    rw [BoundingVolumeHierarchy.fromTrianglesList.eq_def]
    by_cases h1 : ts.length = 1
    · rw [dif_pos h1]
      rw [h1, Nat.clog_one_right] at hlvl
      obtain ⟨tri, rfl⟩ := List.length_eq_one.mp h1
      rw [BoundingVolumeHierarchy.computeHit.eq_3]
      cases hbox : (BoundingVolumeHierarchy.computeBboxFromTriangles [tri]).computeHit ray with
      | none =>
        dsimp only
        rw [Option.map_none']
        exact (allMiss_of_box_none [tri] ray hdx hdy hdz hbound hbox).symm
      | some bv =>
        dsimp only
        rw [if_neg (by omega : ¬ lvl = 115)]
        dsimp only [List.getD_cons_zero]
        rw [minHitT_cons, show minHitT [] ray = none from rfl, combineMinT_none_right]
        cases hth : tri.computeHit ray with
        | none => rfl
        | some h => rfl
    by_cases h2 : ts.length = 2
    · rw [dif_neg h1, dif_pos h2]
      rw [h2] at hlvl
      have hc2 : Nat.clog 2 2 = 1 := by
        rw [show (2:ℕ) = 2 ^ 1 from rfl]
        exact Nat.clog_pow 2 1 (by norm_num)
      obtain ⟨a, b, rfl⟩ := List.length_eq_two.mp h2
      rw [BoundingVolumeHierarchy.computeHit.eq_1]
      cases hbox : (BoundingVolumeHierarchy.computeBboxFromTriangles [a, b]).computeHit ray with
      | none =>
        dsimp only
        rw [Option.map_none']
        exact (allMiss_of_box_none [a, b] ray hdx hdy hdz hbound hbox).symm
      | some bv =>
        dsimp only
        rw [if_neg (by omega : ¬ lvl + 1 = 115)]
        dsimp only [List.getD_cons_zero, List.getD_cons_succ]
        rw [minHitT_cons, minHitT_cons, show minHitT [] ray = none from rfl,
          combineMinT_none_right]
        cases hta : a.computeHit ray with
        | none =>
          dsimp only
          cases htb : b.computeHit ray with
          | none => rfl
          | some hbb => rfl
        | some ha =>
          cases htb : b.computeHit ray with
          | none => rfl
          | some hbb =>
            dsimp only
            rw [ite_lt_min_hit]
            rfl
    by_cases h0 : ts.length = 0
    · exact absurd (List.length_eq_zero.mp h0) hne
    rw [dif_neg h1, dif_neg h2, dif_neg h0]
    dsimp only
    set sorted := ts.mergeSort BoundingVolumeHierarchy.centerLe with hsorted
    set L := sorted.take (sorted.length / 2) with hL
    set R := sorted.drop (sorted.length / 2) with hR
    have hperm : sorted.Perm ts := by
      rw [hsorted]
      exact List.mergeSort_perm ts _
    have hlensorted : sorted.length = ts.length := hperm.length_eq
    have hlen3 : 3 ≤ ts.length := by omega
    have hLlen : L.length = sorted.length / 2 := by
      rw [hL, List.length_take, min_eq_left (Nat.div_le_self _ _)]
    have hRlen : R.length = sorted.length - sorted.length / 2 := by
      rw [hR, List.length_drop]
    have hsplit : L ++ R = sorted := by
      rw [hL, hR]
      exact List.take_append_drop _ _
    have hclog : Nat.clog 2 ts.length = Nat.clog 2 ((ts.length + 1) / 2) + 1 := by
      have harg : ts.length + 2 - 1 = ts.length + 1 := by omega
      conv_lhs => rw [Nat.clog_of_two_le (by norm_num) (by omega : 2 ≤ ts.length)]
      rw [harg]
    have hLlvl : (lvl + 1) + Nat.clog 2 L.length ≤ 114 := by
      have hmono : Nat.clog 2 L.length ≤ Nat.clog 2 ((ts.length + 1) / 2) := by
        apply Nat.clog_mono_right
        rw [hLlen, hlensorted]
        omega
      omega
    have hRlvl : (lvl + 1) + Nat.clog 2 R.length ≤ 114 := by
      have hmono : Nat.clog 2 R.length ≤ Nat.clog 2 ((ts.length + 1) / 2) := by
        apply Nat.clog_mono_right
        rw [hRlen, hlensorted]
        omega
      omega
    have hLn : L.length ≤ n := by
      rw [hLlen, hlensorted]
      omega
    have hRn : R.length ≤ n := by
      rw [hRlen, hlensorted]
      omega
    have hLpos : L.length ≠ 0 := by
      rw [hLlen, hlensorted]
      omega
    have hLne : L ≠ [] := fun hnil => hLpos (by rw [hnil]; rfl)
    have hRpos : R.length ≠ 0 := by
      rw [hRlen, hlensorted]
      omega
    have hRne : R ≠ [] := fun hnil => hRpos (by rw [hnil]; rfl)
    have hLbound : ∀ tri ∈ L, ∀ h : Hit, tri.computeHit ray = some h → h.t ≤ 100000 := by
      intro tri htri h hth
      refine hbound tri (hperm.subset ?_) h hth
      rw [hL] at htri
      exact List.take_subset _ _ htri
    have hRbound : ∀ tri ∈ R, ∀ h : Hit, tri.computeHit ray = some h → h.t ≤ 100000 := by
      intro tri htri h hth
      refine hbound tri (hperm.subset ?_) h hth
      rw [hR] at htri
      exact List.drop_subset _ _ htri
    have hts : minHitT ts ray = combineMinT (minHitT L ray) (minHitT R ray) :=
      calc minHitT ts ray = minHitT sorted ray := (minHitT_perm ray hperm).symm
      _ = minHitT (L ++ R) ray := by rw [hsplit]
      _ = combineMinT (minHitT L ray) (minHitT R ray) := minHitT_append ray L R
    have hLhit : ∀ lo : Option Hit, Option.map Hit.t lo = minHitT L ray →
        ∀ ro : Option Hit, Option.map Hit.t ro = minHitT R ray →
        Option.map Hit.t (match lo with
          | some lh =>
            match ro with
            | some rh => some (if lh.t < rh.t then lh else rh)
            | none => some lh
          | none => ro)
          = combineMinT (minHitT L ray) (minHitT R ray) := by
      intro lo hlo ro hro
      rw [combineHits_map_t, hlo, hro]
    have hRne1 : ¬ R.length = 1 := by
      rw [hRlen, hlensorted]
      omega
    by_cases hL1 : L.length = 1
    · obtain ⟨l0, hLeq⟩ := List.length_eq_one.mp hL1
      rw [if_pos hL1, if_pos hL1, if_neg hRne1, if_neg hRne1]
      rw [BoundingVolumeHierarchy.computeHit.eq_2]
      cases hbox : (BoundingVolumeHierarchy.computeBboxFromTriangles ts).computeHit ray with
      | none =>
        dsimp only
        rw [Option.map_none']
        exact (allMiss_of_box_none ts ray hdx hdy hdz hbound hbox).symm
      | some bv =>
        dsimp only
        rw [if_neg (by omega : ¬ lvl = 115), hts]
        have hl0 : Option.map Hit.t ((L.getD 0 default).computeHit ray) = minHitT L ray := by
          rw [hLeq]
          dsimp only [List.getD_cons_zero]
          rw [minHitT_cons, show minHitT [] ray = none from rfl, combineMinT_none_right]
        exact hLhit _ hl0 _ (ih R (lvl + 1) hRn hRne hRlvl hRbound)
    · rw [if_neg hL1, if_neg hL1, if_neg hRne1, if_neg hRne1]
      rw [BoundingVolumeHierarchy.computeHit.eq_5]
      cases hbox : (BoundingVolumeHierarchy.computeBboxFromTriangles ts).computeHit ray with
      | none =>
        dsimp only
        rw [Option.map_none']
        exact (allMiss_of_box_none ts ray hdx hdy hdz hbound hbox).symm
      | some bv =>
        dsimp only
        rw [if_neg (by omega : ¬ lvl = 115), hts]
        exact hLhit _ (ih L (lvl + 1) hLn hLne hLlvl hLbound)
          _ (ih R (lvl + 1) hRn hRne hRlvl hRbound)

theorem c2FarTri_hit_t :
    Option.map Hit.t (c2FarTri.computeHit c2FarRay) = some 1e15 := by
  unfold Triangle.computeHit
  norm_num [c2FarTri, c2FarRay, Triangle.computeNormal, Triangle.v0, Triangle.v1,
    Triangle.v2, List.getD_cons_zero, List.getD_cons_succ, Point.sub, Vec3.cross,
    Vec3.normalize, Vec3.norm, Vec3.normSquared, Vec3.smul, Vec3.dot, Point.toVec,
    minRayT, isOnTheRight, Ray.computePoint, Point.addVec, Real.sqrt_one]

theorem c2FarBox_none :
    (BoundingVolumeHierarchy.computeBboxFromTriangles [c2FarTri]).computeHit c2FarRay
      = none := by
  unfold BoundingVolumeHierarchy.computeBboxFromTriangles AxisAlignedBox.computeHit
  norm_num [c2FarTri, c2FarRay, Triangle.minDim, Triangle.maxDim, Point.coord,
    Triangle.v0, Triangle.v1, Triangle.v2, List.getD_cons_zero, List.getD_cons_succ,
    Point.addScalar, aabbEpsilon, minRayT]

/-- Counterexample to C2 as stated: for the single triangle at `z = 10^15`
and a ray from `(0.25, 0.25, 0)` along `+z`, the slow linear scan finds the
hit at `t = 10^15`, but the BVH (which `compute_hit` uses when present)
returns no hit: the `EPSILON`-shifted slab test maps the degenerate x/y
slabs to intervals of magnitude about `10^10`, far below the actual `t`. -/
theorem c2_bvh_misses_far_hit :
    Option.map Hit.t (c2FarMesh.computeSlowHit c2FarRay) = some 1e15 ∧
    c2FarMesh.computeHit c2FarRay = none := by
  constructor
  · have hmap := c2FarTri_hit_t
    unfold TriangleMesh.computeSlowHit
    show Option.map Hit.t (List.foldl _ none [c2FarTri]) = some 1e15
    rw [List.foldl_cons, List.foldl_nil]
    cases hth : c2FarTri.computeHit c2FarRay with
    | none =>
      rw [hth] at hmap
      simp at hmap
    | some hit =>
      rw [hth] at hmap
      dsimp only
      exact hmap
  · unfold TriangleMesh.computeHit
    show (BoundingVolumeHierarchy.fromTrianglesList [c2FarTri] 0).computeHit c2FarRay
      = none
    rw [BoundingVolumeHierarchy.fromTrianglesList.eq_def,
      dif_pos (show ([c2FarTri] : List Triangle).length = 1 from rfl),
      BoundingVolumeHierarchy.computeHit.eq_3, c2FarBox_none]

/-- C2 (amended): `TriangleMesh::compute_hit` through the freshly built BVH
agrees with `compute_slow_hit` on the hit parameter `t`, provided no
direction component equals `-EPSILON`, every triangle hit lies within
`t ≤ 100000` (so that `t * EPSILON` stays below the `0.00001` bounding-box
padding), and the mesh has at most `2 ^ 114` triangles (so the
`bvh_level == 115` debug escape is never reached). -/
theorem c2_mesh_bvh_matches_slow (m : TriangleMesh) (ray : Ray)
    (hbvh : m.bvh = some (BoundingVolumeHierarchy.fromTrianglesList m.triangles 0))
    (hne : m.triangles ≠ [])
    (hlen : m.triangles.length ≤ 2 ^ 114)
    (hdx : ray.direction.x + aabbEpsilon ≠ 0)
    (hdy : ray.direction.y + aabbEpsilon ≠ 0)
    (hdz : ray.direction.z + aabbEpsilon ≠ 0)
    (hbound : ∀ tri ∈ m.triangles, ∀ h : Hit,
      tri.computeHit ray = some h → h.t ≤ 100000) :
    Option.map Hit.t (m.computeHit ray) = Option.map Hit.t (m.computeSlowHit ray) := by
  rw [slowHit_map_t]
  unfold TriangleMesh.computeHit
  rw [hbvh]
  have hclog : Nat.clog 2 m.triangles.length ≤ 114 :=
    calc Nat.clog 2 m.triangles.length ≤ Nat.clog 2 (2 ^ 114) :=
        Nat.clog_mono_right _ hlen
    _ = 114 := Nat.clog_pow 2 114 (by norm_num)
  exact bvh_fromTriangles_map_t ray hdx hdy hdz m.triangles.length m.triangles 0
    le_rfl hne (by omega) hbound

/-- Witness: the amended C2 theorem applied to a concrete one-triangle mesh
at `z = 1` with all hypotheses discharged. -/
theorem c2_mesh_bvh_matches_slow_witness :
    Option.map Hit.t (c2NearMesh.computeHit c2FarRay)
      = Option.map Hit.t (c2NearMesh.computeSlowHit c2FarRay) := by
  refine c2_mesh_bvh_matches_slow c2NearMesh c2FarRay rfl (by simp [c2NearMesh])
    (by norm_num [c2NearMesh]) (by norm_num [c2FarRay, aabbEpsilon])
    (by norm_num [c2FarRay, aabbEpsilon]) (by norm_num [c2FarRay, aabbEpsilon]) ?_
  intro tri htri h hth
  have htri1 : tri = c2NearTri := by
    have : tri ∈ c2NearMesh.triangles := htri
    simp [c2NearMesh] at this
    exact this
  subst htri1
  obtain ⟨_, _, htval, _⟩ := triangle_hit_elim _ c2FarRay h hth
  have hn : c2NearTri.computeNormal = ⟨0, 0, 1⟩ := by
    unfold Triangle.computeNormal
    ext <;>
      norm_num [c2NearTri, Triangle.v0, Triangle.v1, Triangle.v2, List.getD_cons_zero,
        List.getD_cons_succ, Point.sub, Vec3.cross, Vec3.normalize, Vec3.norm,
        Vec3.normSquared, Vec3.smul, Real.sqrt_one]
  rw [hn] at htval
  norm_num [c2FarRay, c2NearTri, Vec3.dot, Point.toVec, Triangle.v0,
    List.getD_cons_zero] at htval
  rw [htval]
  norm_num

end

end Rtrs
